import Mathlib

/-!
Shallow embedding of the hospital-scheduling RVNS solver
(`src/instances/Hospital.py`, `src/solvers/constraints.py`,
`src/solvers/RVNS_solver.py`).

Conventions of the embedding:
* Python dictionaries built by comprehension (`{x['id']: x for x in l}`) are
  modelled by `pyDictLookup` (later entries override earlier ones, as in
  Python) and `pyDictValues` (distinct keys in first-insertion order, each
  mapped to its last value, matching `dict.values()`).
* Python code that can raise (`KeyError` from a direct `d[k]` index,
  `IndexError` from `l[i]`, `ValueError` from `list.remove`, attribute
  access on `None`) is modelled with `Option`: `none` is a raised exception.
  Code using `.get` with a check is total and is modelled totally.
* `get_patient_by_id` can return either a patient or an occupant dictionary;
  this is modelled with a sum type, and a field access that would be a
  `KeyError` on the other variant is modelled as `none`.
* Aggregations that Python performs by iterating over `dict`/`set`
  (counting keys, summing per-key values) are modelled by aggregating over
  `List.dedup` of the key list; Python's iteration order does not affect
  these order-insensitive aggregates.
* Randomness (`random.choice`, `random.shuffle`) is supplied by explicit
  oracle parameters: a choice is an arbitrary natural taken modulo the list
  length, a shuffle is an arbitrary function on lists.
-/

namespace HSched

/-- Traverse a list with a fallible function, propagating the first failure —
the `Option`-monad sequencing Python gets by raising out of a loop. -/
def optTraverse (f : α → Option β) : List α → Option (List β)
  | [] => some []
  | a :: l =>
    match f a with
    | none => none
    | some b =>
      match optTraverse f l with
      | none => none
      | some bs => some (b :: bs)

/-- Lookup in a Python dict built as `{key x: x for x in l}`: the LAST
element of `l` with the given key wins, `none` when no element matches. -/
def pyDictLookup [DecidableEq κ] (key : α → κ) : List α → κ → Option α
  | [], _ => none
  | x :: l, k =>
    match pyDictLookup key l k with
    | some y => some y
    | none => if key x = k then some x else none

/-- Helper for `firstDedup`: drop elements already seen. -/
def firstDedupAux [DecidableEq α] (seen : List α) : List α → List α
  | [] => []
  | a :: l =>
    if a ∈ seen then firstDedupAux seen l
    else a :: firstDedupAux (seen ++ [a]) l

/-- Distinct elements of a list in first-occurrence order (Python dict key
order). -/
def firstDedup [DecidableEq α] (l : List α) : List α :=
  firstDedupAux [] l

/-- `dict.values()` for a Python dict built as `{key x: x for x in l}`:
distinct keys in first-insertion order, each mapped to its last value. -/
def pyDictValues [DecidableEq κ] (key : α → κ) (l : List α) : List α :=
  (firstDedup (l.map key)).filterMap (pyDictLookup key l)

/-- In-place update of the `i`-th element of a list (mutation of a chosen
element of a Python list). -/
def listModify (l : List α) (i : Nat) (f : α → α) : List α :=
  match l, i with
  | [], _ => []
  | a :: l, 0 => f a :: l
  | a :: l, n + 1 => a :: listModify l n f

/-- `random.choice`: an arbitrary oracle natural `n` selects index
`n % length` of a nonempty list. -/
def listPick (l : List α) (n : Nat) (hne : l ≠ []) : α :=
  l.get ⟨n % l.length, Nat.mod_lt _ (List.length_pos.mpr hne)⟩

/-! ## Instance data (`Hospital.Loader`) -/

structure Room where
  id : String
  capacity : Nat
deriving DecidableEq, Repr

structure Surgeon where
  id : String
  max_surgery_time : List Nat
deriving DecidableEq, Repr

structure Theater where
  id : String
  availability : List Nat
deriving DecidableEq, Repr

structure WorkShift where
  day : Nat
  shift : String
  max_load : Nat
deriving DecidableEq, Repr

structure Nurse where
  id : String
  skill_level : Nat
  working_shifts : List WorkShift
deriving DecidableEq, Repr

/-- A patient record from the instance JSON. `surgery_due_day` is present
only on mandatory patients (`none` models an absent key). -/
structure Patient where
  id : String
  mandatory : Bool
  gender : String
  age_group : String
  length_of_stay : Nat
  surgery_release_day : Nat
  surgery_due_day : Option Nat
  surgery_duration : Nat
  surgeon_id : String
  incompatible_room_ids : List String
  workload_produced : List Nat
  skill_level_required : List Nat
deriving DecidableEq, Repr

/-- An occupant record: pre-admitted at day 0 with a fixed room and no
surgery fields. -/
structure Occupant where
  id : String
  gender : String
  age_group : String
  length_of_stay : Nat
  workload_produced : List Nat
  skill_level_required : List Nat
  room_id : String
deriving DecidableEq, Repr

/-- The soft-constraint weights from the instance file
(`PenaltyWeights`). -/
structure Weights where
  room_mixed_age : Nat
  room_nurse_skill : Nat
  continuity_of_care : Nat
  nurse_eccessive_workload : Nat
  open_operating_theater : Nat
  surgeon_transfer : Nat
  patient_delay : Nat
  unscheduled_optional : Nat
deriving DecidableEq, Repr

/-- The loaded instance (`Loader`): the raw entity lists; the `*_dict`
views are the derived `pyDictLookup`s below. -/
structure Hospital where
  days : Nat
  skill_levels : List String
  shift_types : List String
  age_groups : List String
  occupants : List Occupant
  patients : List Patient
  surgeons : List Surgeon
  operating_theaters : List Theater
  rooms : List Room
  nurses : List Nurse
  weights : Weights
deriving DecidableEq, Repr

def patient_dict (h : Hospital) : String → Option Patient :=
  pyDictLookup Patient.id h.patients

def occupant_dict (h : Hospital) : String → Option Occupant :=
  pyDictLookup Occupant.id h.occupants

def room_dict (h : Hospital) : String → Option Room :=
  pyDictLookup Room.id h.rooms

def nurses_dict (h : Hospital) : String → Option Nurse :=
  pyDictLookup Nurse.id h.nurses

def surgeon_dict (h : Hospital) : String → Option Surgeon :=
  pyDictLookup Surgeon.id h.surgeons

def operating_theaters_dict (h : Hospital) : String → Option Theater :=
  pyDictLookup Theater.id h.operating_theaters

/-- `room_dict.keys()` in insertion order. -/
def room_keys (h : Hospital) : List String :=
  firstDedup (h.rooms.map Room.id)

/-- `operating_theaters_dict.keys()` in insertion order. -/
def ot_keys (h : Hospital) : List String :=
  firstDedup (h.operating_theaters.map Theater.id)

/-! ## Solution state -/

/-- One entry of `solution['patients']`:
`{"id", "admission_day", "room", "operating_theater"}`. -/
structure PSol where
  id : String
  admission_day : Nat
  room : String
  operating_theater : String
deriving DecidableEq, Repr

/-- One entry of a nurse's `assignments` list:
`{"day", "shift", "rooms"}`. -/
structure NAssign where
  day : Nat
  shift : String
  rooms : List String
deriving DecidableEq, Repr

/-- One entry of `solution['nurses']`: `{"id", "assignments"}`. -/
structure NSol where
  id : String
  assignments : List NAssign
deriving DecidableEq, Repr

structure Solution where
  patients : List PSol
  nurses : List NSol
deriving DecidableEq, Repr

/-! ## The Loader's derived queries -/

/-- `Loader.get_patient_by_id`: the patient dict is consulted first, then
the occupant dict. -/
def get_patient_by_id (h : Hospital) (pid : String) :
    Option (Patient ⊕ Occupant) :=
  match patient_dict h pid with
  | some p => some (Sum.inl p)
  | none =>
    match occupant_dict h pid with
    | some o => some (Sum.inr o)
    | none => none

/-- `Loader.get_solution_patient_by_id`: first matching entry of
`solution['patients']`. -/
def get_solution_patient_by_id (sol : Solution) (pid : String) :
    Option PSol :=
  sol.patients.find? (fun ps => decide (ps.id = pid))

/-- The fields of the `patient_copy` dictionaries yielded by
`get_all_patients_in_rooms` that its consumers read; `admission_day`
is the value set on the copy, or the `.get('admission_day', 0)` default 0
for occupants. -/
structure OccEntry where
  gender : String
  age_group : String
  admission_day : Nat
  workload_produced : List Nat
  skill_level_required : List Nat
deriving DecidableEq, Repr

def Patient.toEntry (p : Patient) (adm : Nat) : OccEntry :=
  ⟨p.gender, p.age_group, adm, p.workload_produced, p.skill_level_required⟩

def Occupant.toEntry (o : Occupant) (adm : Nat) : OccEntry :=
  ⟨o.gender, o.age_group, adm, o.workload_produced, o.skill_level_required⟩

def prEntry (pr : Patient ⊕ Occupant) (adm : Nat) : OccEntry :=
  match pr with
  | Sum.inl p => p.toEntry adm
  | Sum.inr o => o.toEntry adm

def prStay (pr : Patient ⊕ Occupant) : Nat :=
  match pr with
  | Sum.inl p => p.length_of_stay
  | Sum.inr o => o.length_of_stay

/-- `Loader.get_all_patients_in_rooms`: the occupancy expansion. A solution
entry whose id resolves to nothing is skipped; each resolved stay yields one
`(day, room, patient_copy)` triple per stay day inside the horizon;
occupants contribute from day 0 (an occupant with a falsy `room_id` — the
empty string — is skipped). -/
def get_all_patients_in_rooms (h : Hospital) (sol : Solution) :
    List (Nat × String × OccEntry) :=
  (sol.patients.flatMap (fun ps =>
    match get_patient_by_id h ps.id with
    | none => []
    | some pr =>
      (List.range (prStay pr)).filterMap (fun off =>
        let d := ps.admission_day + off
        if d < h.days then some (d, ps.room, prEntry pr ps.admission_day)
        else none)))
  ++ h.occupants.flatMap (fun o =>
    if o.room_id = "" then []
    else
      (List.range o.length_of_stay).filterMap (fun off =>
        if off < h.days then some (off, o.room_id, o.toEntry 0) else none))

/-- `Loader.get_nurse_assignments` before projecting to id or skill: the
`(day, shift, room) → nurse` pairs in insertion order (entries whose nurse
id is unknown are skipped). The Python function stores `nurse['id']` or
`nurse['skill_level']` directly; storing the nurse and projecting at the
lookup is observably the same. -/
def nurse_assignment_pairs (h : Hospital) (sol : Solution) :
    List ((Nat × String × String) × Nurse) :=
  sol.nurses.flatMap (fun nsol =>
    match nurses_dict h nsol.id with
    | none => []
    | some nu =>
      nsol.assignments.flatMap (fun a =>
        a.rooms.map (fun r => ((a.day, a.shift, r), nu))))

/-- Lookup into the nurse-coverage map (last write wins, as for a Python
dict). -/
def get_nurse_assignments (h : Hospital) (sol : Solution)
    (k : Nat × String × String) : Option Nurse :=
  (pyDictLookup (fun (e : (Nat × String × String) × Nurse) => e.1)
    (nurse_assignment_pairs h sol) k).map Prod.snd

/-- `Loader.get_nurse_max_load`: 0 for an unknown nurse id and 0 when no
working shift of the nurse matches the (day, shift). -/
def get_nurse_max_load (h : Hospital) (nid : String) (d : Nat)
    (sn : String) : Nat :=
  match nurses_dict h nid with
  | none => 0
  | some nu =>
    match nu.working_shifts.find?
        (fun ws => decide (ws.day = d) && decide (ws.shift = sn)) with
    | none => 0
    | some ws => ws.max_load

/-! ## Constraint functions (`solvers/constraints.py`) -/

def HARD_VIOLATION_PENALTY : Nat := 1000000

/-- H1: count the (day, room) keys of the occupancy expansion seeing more
than one distinct gender. -/
def h1_no_gender_mix (sol : Solution) (h : Hospital) : Nat :=
  let trips := get_all_patients_in_rooms h sol
  let keys := (trips.map (fun t => (t.1, t.2.1))).dedup
  (keys.countP (fun k =>
    decide (((trips.filter (fun t => decide ((t.1, t.2.1) = k))).map
      (fun t => t.2.2.gender)).dedup.length > 1)))
    * HARD_VIOLATION_PENALTY

/-- H2: a solution entry is counted when its id resolves to a patient whose
`incompatible_room_ids` contains the entry's room; an entry resolving to an
occupant has no `incompatible_room_ids` key, an unresolved entry is
ignored. -/
def h2_compatible_rooms (sol : Solution) (h : Hospital) : Nat :=
  (sol.patients.countP (fun ps =>
    match get_patient_by_id h ps.id with
    | some (Sum.inl p) => decide (ps.room ∈ p.incompatible_room_ids)
    | _ => false)) * HARD_VIOLATION_PENALTY

/-- H7: per-(day, room) occupancy counts compared against
`hospital.room_dict[r_id]['capacity']` — a direct dict index, so a room id
absent from the room table is a `KeyError` (`none`). -/
def h7_room_capacity (sol : Solution) (h : Hospital) : Option Nat :=
  let trips := get_all_patients_in_rooms h sol
  let keys := (trips.map (fun t => (t.1, t.2.1))).dedup
  (optTraverse (fun k =>
      match room_dict h k.2 with
      | none => none
      | some rm =>
        some (if rm.capacity <
            trips.countP (fun t => decide ((t.1, t.2.1) = k)) then 1 else 0))
    keys).map (fun vs => vs.sum * HARD_VIOLATION_PENALTY)

/-- `age_map[a]` built by `{age: i for i, age in enumerate(age_groups)}`;
a `KeyError` (`none`) for an age group not in the list. -/
def age_index (h : Hospital) (a : String) : Option Nat :=
  (pyDictLookup Prod.snd h.age_groups.enum a).map Prod.fst

/-- S1: per-(day, room) spread between the greatest and smallest age-group
rank; the direct `age_map[...]` index raises on an unknown age group. -/
def s1_mixed_age_penalty (sol : Solution) (h : Hospital) (w : Nat) :
    Option Nat :=
  let trips := get_all_patients_in_rooms h sol
  match optTraverse (fun t =>
      (age_index h t.2.2.age_group).map (fun i => ((t.1, t.2.1), i)))
    trips with
  | none => none
  | some pairs =>
    let keys := (pairs.map Prod.fst).dedup
    some ((keys.map (fun k =>
      match (pairs.filter (fun e => decide (e.1 = k))).map Prod.snd with
      | [] => 0
      | [_] => 0
      | a :: b :: rest =>
        ((b :: rest).foldl max a) - ((b :: rest).foldl min a))).sum * w)

/-- S2: for each occupancy triple and each shift, the required level at
`day_offset * 3 + shift_idx` (note the hard-coded 3), charging
`required − skill` when the staffed nurse is below it; a slot absent from
the coverage map contributes nothing. -/
def s2_minimum_skill_level (sol : Solution) (h : Hospital) (w : Nat) : Nat :=
  let trips := get_all_patients_in_rooms h sol
  (trips.map (fun t =>
    (h.shift_types.enum.map (fun si =>
      let req_idx := (t.1 - t.2.2.admission_day) * 3 + si.1
      match t.2.2.skill_level_required.get? req_idx with
      | none => 0
      | some required =>
        match get_nurse_assignments h sol (t.1, si.2, t.2.1) with
        | none => 0
        | some nu =>
          if nu.skill_level < required then required - nu.skill_level
          else 0)).sum)).sum * w

/-- The S3 term of one patient id: the number of distinct nurses staffing
any (day, shift, room) slot of that id's stay. -/
def s3_patient_term (h : Hospital) (sol : Solution) (pid : String) : Nat :=
  match get_patient_by_id h pid with
  | none => 0
  | some pr =>
    let psol := get_solution_patient_by_id sol pid
    let adm := match psol with
      | some x => x.admission_day
      | none => 0
    let room : Option String := match psol with
      | some x => some x.room
      | none =>
        match pr with
        | Sum.inl _ => none
        | Sum.inr o => some o.room_id
    match room with
    | none => 0
    | some r =>
      if r = "" then 0
      else
        (((List.range (prStay pr)).flatMap (fun off =>
          h.shift_types.map (fun sn =>
            get_nurse_assignments h sol (adm + off, sn, r)))).filterMap
          (fun x => x.map Nurse.id)).dedup.length

/-- S3: summed over the distinct ids among solution entries and
occupants. -/
def s3_continuity_of_care (sol : Solution) (h : Hospital) (w : Nat) : Nat :=
  let ids := sol.patients.map PSol.id ++ h.occupants.map Occupant.id
  ((ids.dedup.map (s3_patient_term h sol)).sum) * w

/-- The `nurse_workload` accumulation of S4: one
`((nurse_id, day, shift), workload)` contribution per staffed occupancy
triple and shift with a valid workload index (again a hard-coded 3). -/
def s4_pairs (h : Hospital) (sol : Solution) :
    List ((String × Nat × String) × Nat) :=
  (get_all_patients_in_rooms h sol).flatMap (fun t =>
    h.shift_types.enum.filterMap (fun si =>
      match get_nurse_assignments h sol (t.1, si.2, t.2.1) with
      | none => none
      | some nu =>
        match t.2.2.workload_produced.get?
            ((t.1 - t.2.2.admission_day) * 3 + si.1) with
        | none => none
        | some wl => some ((nu.id, t.1, si.2), wl)))

/-- S4: per (nurse, day, shift), the excess of the summed workload over
`get_nurse_max_load`. -/
def s4_maximum_workload (sol : Solution) (h : Hospital) (w : Nat) : Nat :=
  let prs := s4_pairs h sol
  let keys := (prs.map Prod.fst).dedup
  (keys.map (fun k =>
    let load := ((prs.filter (fun e => decide (e.1 = k))).map Prod.snd).sum
    let m := get_nurse_max_load h k.1 k.2.1 k.2.2
    if m < load then load - m else 0)).sum * w

/-- The `surgeon_load` contribution of one solution entry for H3: skipped
(`some none`) when the id is unknown, a `KeyError` (`none`) when it
resolves to an occupant (no `surgeon_id` key). -/
def h3_contrib (h : Hospital) (ps : PSol) :
    Option (Option ((Nat × String) × Nat)) :=
  match get_patient_by_id h ps.id with
  | none => some none
  | some (Sum.inl p) =>
    some (some ((ps.admission_day, p.surgeon_id), p.surgery_duration))
  | some (Sum.inr _) => none

/-- H3: per (day, surgeon) summed surgery minutes against
`surgeon['max_surgery_time'][day]`; an unknown surgeon id is skipped via
`.get`, an out-of-range day is an `IndexError` (`none`). -/
def h3_surgeon_overtime (sol : Solution) (h : Hospital) : Option Nat :=
  match optTraverse (h3_contrib h) sol.patients with
  | none => none
  | some entries0 =>
    let entries := entries0.filterMap id
    let keys := (entries.map Prod.fst).dedup
    (optTraverse (fun k =>
        let load :=
          ((entries.filter (fun e => decide (e.1 = k))).map Prod.snd).sum
        match surgeon_dict h k.2 with
        | none => some 0
        | some sg =>
          match sg.max_surgery_time.get? k.1 with
          | none => none
          | some m => some (if m < load then 1 else 0)) keys).map
      (fun vs => vs.sum * HARD_VIOLATION_PENALTY)

/-- The `ot_load` contribution of one solution entry for H4. -/
def h4_contrib (h : Hospital) (ps : PSol) :
    Option (Option ((Nat × String) × Nat)) :=
  match get_patient_by_id h ps.id with
  | none => some none
  | some (Sum.inl p) =>
    some (some ((ps.admission_day, ps.operating_theater),
      p.surgery_duration))
  | some (Sum.inr _) => none

/-- H4: per (day, theater) summed surgery minutes against
`ot['availability'][day]`. -/
def h4_ot_overtime (sol : Solution) (h : Hospital) : Option Nat :=
  match optTraverse (h4_contrib h) sol.patients with
  | none => none
  | some entries0 =>
    let entries := entries0.filterMap id
    let keys := (entries.map Prod.fst).dedup
    (optTraverse (fun k =>
        let load :=
          ((entries.filter (fun e => decide (e.1 = k))).map Prod.snd).sum
        match operating_theaters_dict h k.2 with
        | none => some 0
        | some ot =>
          match ot.availability.get? k.1 with
          | none => none
          | some m => some (if m < load then 1 else 0)) keys).map
      (fun vs => vs.sum * HARD_VIOLATION_PENALTY)

/-- S5: the number of distinct (admission day, operating theater) pairs of
the solution entries — no instance lookup at all. -/
def s5_open_ots (sol : Solution) (h : Hospital) (w : Nat) : Nat :=
  ((sol.patients.map (fun ps =>
    (ps.admission_day, ps.operating_theater))).dedup.length) * w

/-- The `surgeon_ots` contribution of one solution entry for S6. -/
def s6_contrib (h : Hospital) (ps : PSol) :
    Option (Option ((Nat × String) × String)) :=
  match get_patient_by_id h ps.id with
  | none => some none
  | some (Sum.inl p) =>
    some (some ((ps.admission_day, p.surgeon_id), ps.operating_theater))
  | some (Sum.inr _) => none

/-- S6: per (day, surgeon), distinct theaters used minus one when more than
one. -/
def s6_surgeon_transfer (sol : Solution) (h : Hospital) (w : Nat) :
    Option Nat :=
  match optTraverse (s6_contrib h) sol.patients with
  | none => none
  | some entries0 =>
    let entries := entries0.filterMap id
    let keys := (entries.map Prod.fst).dedup
    some ((keys.map (fun k =>
      let ots :=
        ((entries.filter (fun e => decide (e.1 = k))).map Prod.snd).dedup
      if ots.length > 1 then ots.length - 1 else 0)).sum * w)

/-- H5: mandatory patients of the instance with no solution entry. -/
def h5_mandatory_unscheduled (sol : Solution) (h : Hospital) : Nat :=
  let admitted := sol.patients.map PSol.id
  ((pyDictValues Patient.id h.patients).countP (fun p =>
    p.mandatory && decide (p.id ∉ admitted))) * HARD_VIOLATION_PENALTY

/-- The H6 term of one solution entry: +1 below the release day, +1 above
the due day of a mandatory patient; a `KeyError` (`none`) when the id
resolves to an occupant or a mandatory patient lacks a due day. -/
def h6_entry (h : Hospital) (ps : PSol) : Option Nat :=
  match get_patient_by_id h ps.id with
  | none => some 0
  | some (Sum.inr _) => none
  | some (Sum.inl p) =>
    let v1 := if ps.admission_day < p.surgery_release_day then 1 else 0
    if p.mandatory then
      match p.surgery_due_day with
      | none => none
      | some dd => some (v1 + (if dd < ps.admission_day then 1 else 0))
    else some v1

/-- H6: admission inside the release/due window. -/
def h6_admission_day (sol : Solution) (h : Hospital) : Option Nat :=
  (optTraverse (h6_entry h) sol.patients).map
    (fun vs => vs.sum * HARD_VIOLATION_PENALTY)

/-- The S7 term of one solution entry: the positive part of
`admission_day − surgery_release_day`. -/
def s7_entry (h : Hospital) (ps : PSol) : Option Nat :=
  match get_patient_by_id h ps.id with
  | none => some 0
  | some (Sum.inr _) => none
  | some (Sum.inl p) =>
    some (if p.surgery_release_day < ps.admission_day then
      ps.admission_day - p.surgery_release_day else 0)

/-- S7: total admission delay. -/
def s7_admission_delay (sol : Solution) (h : Hospital) (w : Nat) :
    Option Nat :=
  (optTraverse (s7_entry h) sol.patients).map (fun vs => vs.sum * w)

/-- S8: non-mandatory patients of the instance with no solution entry. -/
def s8_unscheduled_optional (sol : Solution) (h : Hospital) (w : Nat) :
    Nat :=
  let admitted := sol.patients.map PSol.id
  ((pyDictValues Patient.id h.patients).countP (fun p =>
    !p.mandatory && decide (p.id ∉ admitted))) * w

/-- `RVNS.evaluate_solution`: the grand total of the fifteen constraint
values (the Python function also returns them as a breakdown dict; the
individual functions above are that breakdown). `none` when any of them
raises. -/
def evaluate_solution (h : Hospital) (sol : Solution) : Option Nat :=
  match h7_room_capacity sol h with
  | none => none
  | some c7 =>
    match s1_mixed_age_penalty sol h h.weights.room_mixed_age with
    | none => none
    | some cs1 =>
      match h3_surgeon_overtime sol h with
      | none => none
      | some c3 =>
        match h4_ot_overtime sol h with
        | none => none
        | some c4 =>
          match s6_surgeon_transfer sol h h.weights.surgeon_transfer with
          | none => none
          | some cs6 =>
            match h6_admission_day sol h with
            | none => none
            | some c6 =>
              match s7_admission_delay sol h h.weights.patient_delay with
              | none => none
              | some cs7 =>
                some (h1_no_gender_mix sol h + h2_compatible_rooms sol h
                  + c7 + cs1
                  + s2_minimum_skill_level sol h h.weights.room_nurse_skill
                  + s3_continuity_of_care sol h h.weights.continuity_of_care
                  + s4_maximum_workload sol h
                      h.weights.nurse_eccessive_workload
                  + c3 + c4
                  + s5_open_ots sol h h.weights.open_operating_theater
                  + cs6
                  + h5_mandatory_unscheduled sol h + c6 + cs7
                  + s8_unscheduled_optional sol h
                      h.weights.unscheduled_optional)

/-! ## Neighborhood operators (`RVNS._neighborhood_*`)

Each operator consumes randomness through an `OpRand` oracle: `c1`/`c2`/`c3`
feed the successive `random.choice` calls (index = value modulo list
length), the `shuf*` fields stand for `random.shuffle` (an arbitrary
rearrangement function; theorems quantify over it). -/

structure OpRand where
  c1 : Nat
  c2 : Nat
  c3 : Nat
  shufS : List String → List String
  shufS2 : List String → List String
  shufN : List Nat → List Nat

/-- The identity oracle (choice index 0, shuffles leaving lists as-is). -/
def idRand : OpRand := ⟨0, 0, 0, id, id, fun l => l⟩

/-- The hard checks of `_neighborhood_change_patient_room`, in source order
and with Python's `and` short-circuit (a later check is never evaluated —
so never raises — once an earlier one found a violation). -/
def checks_room (h : Hospital) (s : Solution) : Option Bool :=
  if h1_no_gender_mix s h ≠ 0 then some false
  else if h2_compatible_rooms s h ≠ 0 then some false
  else
    match h7_room_capacity s h with
    | none => none
    | some v => some (v = 0)

/-- The hard checks of `_neighborhood_change_patient_day` (H6, H3, H4). -/
def checks_day (h : Hospital) (s : Solution) : Option Bool :=
  match h6_admission_day s h with
  | none => none
  | some v6 =>
    if v6 ≠ 0 then some false
    else
      match h3_surgeon_overtime s h with
      | none => none
      | some v3 =>
        if v3 ≠ 0 then some false
        else
          match h4_ot_overtime s h with
          | none => none
          | some v4 => some (v4 = 0)

/-- The hard checks of `_neighborhood_reschedule_unscheduled` and of the
initial-solution builder (H1, H2, H7, H3, H4, H6 in source order). -/
def checks_all (h : Hospital) (s : Solution) : Option Bool :=
  if h1_no_gender_mix s h ≠ 0 then some false
  else if h2_compatible_rooms s h ≠ 0 then some false
  else
    match h7_room_capacity s h with
    | none => none
    | some v7 =>
      if v7 ≠ 0 then some false
      else
        match h3_surgeon_overtime s h with
        | none => none
        | some v3 =>
          if v3 ≠ 0 then some false
          else
            match h4_ot_overtime s h with
            | none => none
            | some v4 =>
              if v4 ≠ 0 then some false
              else
                match h6_admission_day s h with
                | none => none
                | some v6 => some (v6 = 0)

/-- The hard checks of `_neighborhood_change_nurse_assignment` (H1, H7). -/
def checks_swap (h : Hospital) (s : Solution) : Option Bool :=
  if h1_no_gender_mix s h ≠ 0 then some false
  else
    match h7_room_capacity s h with
    | none => none
    | some v => some (v = 0)

/-- The hard checks of `_neighborhood_change_patient_ot` (H3, H4). -/
def checks_ot (h : Hospital) (s : Solution) : Option Bool :=
  match h3_surgeon_overtime s h with
  | none => none
  | some v3 =>
    if v3 ≠ 0 then some false
    else
      match h4_ot_overtime s h with
      | none => none
      | some v4 => some (v4 = 0)

/-- The chosen solution entry with its room overwritten (the in-place
`p_sol['room'] = new_room`). -/
def setRoomAt (sol : Solution) (i : Nat) (rm : String) : Solution :=
  { sol with patients :=
      listModify sol.patients i (fun x => { x with room := rm }) }

def setDayAt (sol : Solution) (i : Nat) (d : Nat) : Solution :=
  { sol with patients :=
      listModify sol.patients i (fun x => { x with admission_day := d }) }

def setOtAt (sol : Solution) (i : Nat) (ot : String) : Solution :=
  { sol with patients :=
      listModify sol.patients i (fun x => { x with operating_theater := ot }) }

/-- The retry loop of `_neighborhood_change_patient_room`: first candidate
room keeping the checks clean wins, exhaustion restores the original room
(returning a value equal to the input). -/
def cpr_try (h : Hospital) (sol : Solution) (i : Nat) :
    List String → Option Solution
  | [] => some sol
  | rm :: rest =>
    let s2 := setRoomAt sol i rm
    match checks_room h s2 with
    | none => none
    | some true => some s2
    | some false => cpr_try h sol i rest

/-- `RVNS._neighborhood_change_patient_room`. `random.choice` on an
unknown patient id gives `patient = None` and the following
`patient.get(...)` is an `AttributeError` (`none`). -/
def neighborhood_change_patient_room (h : Hospital) (r : OpRand)
    (sol : Solution) : Option Solution :=
  if hne : sol.patients = [] then some sol
  else
    let i := r.c1 % sol.patients.length
    let ps := listPick sol.patients r.c1 hne
    match get_patient_by_id h ps.id with
    | none => none
    | some pr =>
      let incompat := match pr with
        | Sum.inl p => p.incompatible_room_ids
        | Sum.inr _ => []
      let avail := (room_keys h).filter
        (fun rid => decide (rid ∉ incompat) && decide (rid ≠ ps.room))
      if avail = [] then some sol
      else cpr_try h sol i (r.shufS avail)

/-- The retry loop of `_neighborhood_change_patient_day`. -/
def cpd_try (h : Hospital) (sol : Solution) (i : Nat) :
    List Nat → Option Solution
  | [] => some sol
  | d :: rest =>
    let s2 := setDayAt sol i d
    match checks_day h s2 with
    | none => none
    | some true => some s2
    | some false => cpd_try h sol i rest

/-- `patient.get('surgery_due_day', self.hospital.days -
patient['length_of_stay'])` as a Python int. -/
def dueOf (h : Hospital) (p : Patient) : Int :=
  match p.surgery_due_day with
  | some dd => (dd : Int)
  | none => (h.days : Int) - (p.length_of_stay : Int)

/-- `RVNS._neighborhood_change_patient_day`. The candidate list is
`range(release, due + 1)` (due defaulting to `days − length_of_stay`, an
`int` subtraction) and `days_to_try.remove(original_day)` raises
`ValueError` (`none`) when the current admission day is not in that
list. An id resolving to an occupant raises on `['surgery_release_day']`. -/
def neighborhood_change_patient_day (h : Hospital) (r : OpRand)
    (sol : Solution) : Option Solution :=
  if hne : sol.patients = [] then some sol
  else
    let i := r.c1 % sol.patients.length
    let ps := listPick sol.patients r.c1 hne
    match get_patient_by_id h ps.id with
    | none => none
    | some (Sum.inr _) => none
    | some (Sum.inl p) =>
      let daysAll : List Nat :=
        if (p.surgery_release_day : Int) ≤ dueOf h p then
          List.range' p.surgery_release_day
            ((dueOf h p).toNat + 1 - p.surgery_release_day)
        else []
      if ps.admission_day ∈ daysAll then
        cpd_try h sol i (r.shufN (daysAll.erase ps.admission_day))
      else none

/-- The retry loop of `_neighborhood_reschedule_unscheduled`: candidates
are appended to a copy and kept on a clean check. -/
def rsu_try (h : Hospital) (sol : Solution) (pid : String) :
    List (Nat × String × String) → Option Solution
  | [] => some sol
  | (d, rm, ot) :: rest =>
    let s2 : Solution :=
      { sol with patients := sol.patients ++ [⟨pid, d, rm, ot⟩] }
    match checks_all h s2 with
    | none => none
    | some true => some s2
    | some false => rsu_try h sol pid rest

/-- `RVNS._neighborhood_reschedule_unscheduled`: pick an unscheduled
optional patient and try shuffled `(day, room, theater)` combinations,
days drawn from `range(release, days − length_of_stay)`. -/
def neighborhood_reschedule_unscheduled (h : Hospital) (r : OpRand)
    (sol : Solution) : Option Solution :=
  let admitted := sol.patients.map PSol.id
  let unsched := (pyDictValues Patient.id h.patients).filter
    (fun p => !p.mandatory && decide (p.id ∉ admitted))
  if hne : unsched = [] then some sol
  else
    let p := listPick unsched r.c1 hne
    let ds := r.shufN (List.range' p.surgery_release_day
      ((h.days - p.length_of_stay) - p.surgery_release_day))
    let rms := r.shufS (room_keys h)
    let ots := r.shufS2 (ot_keys h)
    rsu_try h sol p.id
      (ds.flatMap (fun d => rms.flatMap (fun rm =>
        ots.map (fun ot => (d, rm, ot)))))

/-- The candidate `(nurse index, assignment index)` pairs of
`_neighborhood_change_nurse_assignment`: a different nurse's record on the
same (day, shift) whose room set is disjoint from the chosen one's. -/
def cna_candidates (sol : Solution) (nA : NSol) (aA : NAssign) :
    List (Nat × Nat) :=
  (List.range sol.nurses.length).flatMap (fun jB =>
    match sol.nurses.get? jB with
    | none => []
    | some nB =>
      if nB.id = nA.id then []
      else
        (List.range nB.assignments.length).filterMap (fun kB =>
          match nB.assignments.get? kB with
          | none => none
          | some aB =>
            if aB.day = aA.day ∧ aB.shift = aA.shift ∧
                ∀ x ∈ aB.rooms, x ∉ aA.rooms then
              some (jB, kB)
            else none))

/-- Overwrite the room list of assignment `k` of nurse entry `j`. -/
def setRoomsAt (sol : Solution) (j k : Nat) (rooms : List String) :
    Solution :=
  { sol with nurses := listModify sol.nurses j (fun n =>
      { n with assignments := listModify n.assignments k (fun a =>
          { a with rooms := rooms }) }) }

/-- `RVNS._neighborhood_change_nurse_assignment`: swap the room sets of two
same-slot duty records of different nurses; on a failed check the ORIGINAL
input solution object is returned (a value equal to the input). With two or
more nurse entries all of which have empty `assignments` lists, the
`random.choice` over an empty filtered list raises (`none`). -/
def neighborhood_change_nurse_assignment (h : Hospital) (r : OpRand)
    (sol : Solution) : Option Solution :=
  if sol.nurses.length < 2 then some sol
  else
    let withA := (List.range sol.nurses.length).filter (fun j =>
      match sol.nurses.get? j with
      | none => false
      | some n => !n.assignments.isEmpty)
    if hne : withA = [] then none
    else
      let jA := listPick withA r.c1 hne
      match sol.nurses.get? jA with
      | none => none
      | some nA =>
        if hA : nA.assignments = [] then none
        else
          let kA := r.c2 % nA.assignments.length
          let aA := listPick nA.assignments r.c2 hA
          let cands := cna_candidates sol nA aA
          if hc : cands = [] then some sol
          else
            let jk := listPick cands r.c3 hc
            match sol.nurses.get? jk.1 with
            | none => none
            | some nB =>
              match nB.assignments.get? jk.2 with
              | none => none
              | some aB =>
                let s2 := setRoomsAt (setRoomsAt sol jA kA aB.rooms)
                  jk.1 jk.2 aA.rooms
                match checks_swap h s2 with
                | none => none
                | some true => some s2
                | some false => some sol

/-- The retry loop of `_neighborhood_change_patient_ot`. -/
def cpo_try (h : Hospital) (sol : Solution) (i : Nat) :
    List String → Option Solution
  | [] => some sol
  | ot :: rest =>
    let s2 := setOtAt sol i ot
    match checks_ot h s2 with
    | none => none
    | some true => some s2
    | some false => cpo_try h sol i rest

/-- `RVNS._neighborhood_change_patient_ot` (no patient lookup at all). -/
def neighborhood_change_patient_ot (h : Hospital) (r : OpRand)
    (sol : Solution) : Option Solution :=
  if hne : sol.patients = [] then some sol
  else
    let i := r.c1 % sol.patients.length
    let ps := listPick sol.patients r.c1 hne
    let avail := (ot_keys h).filter
      (fun o => decide (o ≠ ps.operating_theater))
    if avail = [] then some sol
    else cpo_try h sol i (r.shufS avail)

/-- `RVNS.neighborhoods`, in source order. -/
def neighborhoods (h : Hospital) :
    List (OpRand → Solution → Option Solution) :=
  [neighborhood_change_patient_room h,
   neighborhood_change_patient_day h,
   neighborhood_reschedule_unscheduled h,
   neighborhood_change_nurse_assignment h,
   neighborhood_change_patient_ot h]

/-- `RVNS.k_max = len(self.neighborhoods)`. -/
def k_max (h : Hospital) : Nat := (neighborhoods h).length

/-- The `for _ in range(k)` body of `_shake`: apply the operator function
repeatedly, one oracle per application. -/
def shake_iter (f : OpRand → Solution → Option Solution)
    (rs : Nat → OpRand) (s : Solution) : Nat → Option Solution
  | 0 => some s
  | n + 1 =>
    match f (rs 0) s with
    | none => none
    | some s2 => shake_iter f (fun i => rs (i + 1)) s2 n

/-- `RVNS._shake`: apply operator `k − 1` exactly `k` times to a clone of
the solution (`self.neighborhoods[k-1]` is an `IndexError` for `k` outside
`[1, k_max]`). -/
def shake (h : Hospital) (rs : Nat → OpRand) (sol : Solution) (k : Nat) :
    Option Solution :=
  match (neighborhoods h).get? (k - 1) with
  | none => none
  | some f => shake_iter f rs sol k

/-- The `while k < self.k_max` loop of `_local_search`, carrying the
current solution and its evaluated cost; an improving neighbor is adopted
and `k` resets to 0, otherwise `k` advances. Termination: the cost strictly
decreases on adoption, `k_max − k` strictly decreases otherwise. -/
def ls_loop (h : Hospital) (rs : Nat → OpRand) (s : Solution) (c : Nat)
    (k : Nat) : Option Solution :=
  if hk : k < k_max h then
    match (neighborhoods h).get? k with
    | none => none
    | some f =>
      match f (rs 0) s with
      | none => none
      | some s2 =>
        match evaluate_solution h s2 with
        | none => none
        | some c2 =>
          if hlt : c2 < c then
            ls_loop h (fun i => rs (i + 1)) s2 c2 0
          else
            ls_loop h (fun i => rs (i + 1)) s c (k + 1)
  else some s
termination_by (c, k_max h - k)
decreasing_by
  · exact Prod.Lex.left _ _ hlt
  · exact Prod.Lex.right c (by omega)

/-- `RVNS._local_search`: evaluate the input, then run the VND loop from
`k = 0`. -/
def local_search (h : Hospital) (rs : Nat → OpRand) (sol : Solution) :
    Option Solution :=
  match evaluate_solution h sol with
  | none => none
  | some c => ls_loop h rs sol c 0

/-- The `while k <= self.k_max` inner loop of `RVNS.solve`: shake the best
solution by `k`, local-search the result, evaluate it, and replace the best
(resetting `k` to 1) exactly when the candidate's cost is strictly lower.
`rs t` supplies the oracles of iteration `t` (`rs t 0` feeds the shake,
`rs t 1` the local search). -/
def solve_inner (h : Hospital) (rs : Nat → Nat → Nat → OpRand)
    (best : Solution) (bc : Nat) (k : Nat) : Option (Solution × Nat) :=
  if hk : k ≤ k_max h then
    match shake h (rs 0 0) best k with
    | none => none
    | some sp =>
      match local_search h (rs 0 1) sp with
      | none => none
      | some s2 =>
        match evaluate_solution h s2 with
        | none => none
        | some c2 =>
          if hlt : c2 < bc then
            solve_inner h (fun t => rs (t + 1)) s2 c2 1
          else
            solve_inner h (fun t => rs (t + 1)) best bc (k + 1)
  else some (best, bc)
termination_by (bc, k_max h + 1 - k)
decreasing_by
  · exact Prod.Lex.left _ _ hlt
  · exact Prod.Lex.right bc (by omega)

/-- The `while time.time() - start < limit` outer loop of `RVNS.solve`,
with the wall-clock deadline modelled by a bound on the number of outer
iterations (the deadline is only consulted between iterations, so a run is
some finite number of full inner passes). -/
def solve_outer (h : Hospital) (rs : Nat → Nat → Nat → Nat → OpRand)
    (best : Solution) (bc : Nat) : Nat → Option (Solution × Nat)
  | 0 => some (best, bc)
  | fuel + 1 =>
    match solve_inner h (rs 0) best bc 1 with
    | none => none
    | some (b2, c2) => solve_outer h (fun t => rs (t + 1)) b2 c2 fuel

/-! ## Initial solution builder (`RVNS._generate_initial_solution`) -/

/-- The builder's randomness: per-patient room and theater shuffles and a
per-call nurse choice. -/
structure BuildRand where
  shufRooms : Nat → List String → List String
  shufOts : Nat → List String → List String
  pickNurse : Nat → Nat

def idBuildRand : BuildRand := ⟨fun _ l => l, fun _ l => l, fun _ => 0⟩

/-- The Python `sorted(..., key=...)` (stable ascending by a boolean `≤` on
keys): stable insertion sort. -/
def sortedBy (le : α → α → Bool) : List α → List α
  | [] => []
  | a :: l => insertSorted le a (sortedBy le l)
where
  insertSorted (le : α → α → Bool) (a : α) : List α → List α
    | [] => [a]
    | b :: l => if le a b then a :: b :: l else b :: insertSorted le a l

/-- Sort key for mandatory patients: ascending
`p.get('surgery_due_day', float('inf'))`. -/
def due_le (a b : Patient) : Bool :=
  match a.surgery_due_day, b.surgery_due_day with
  | some x, some y => x ≤ y
  | some _, none => true
  | none, none => true
  | none, some _ => false

/-- The day/room/theater triple loop of the builder for one patient: accept
the first combination passing `checks_all` on the tentatively extended
solution; none found leaves the solution unchanged. -/
def build_place (h : Hospital) (sol : Solution) (pid : String) :
    List (Nat × String × String) → Option Solution
  | [] => some sol
  | (d, rm, ot) :: rest =>
    let temp : Solution :=
      { sol with patients := sol.patients ++ [⟨pid, d, rm, ot⟩] }
    match checks_all h temp with
    | none => none
    | some true => some temp
    | some false => build_place h sol pid rest

/-- The per-patient scheduling loop of the builder. A patient whose window
is empty (`release_day > due_day`, compared as Python ints) is skipped. -/
def build_patients_loop (h : Hospital) (r : BuildRand) (i : Nat)
    (sol : Solution) : List Patient → Option Solution
  | [] => some sol
  | p :: rest =>
    let dueI : Int := match p.surgery_due_day with
      | some dd => (dd : Int)
      | none => (h.days : Int) - (p.length_of_stay : Int)
    if (p.surgery_release_day : Int) > dueI then
      build_patients_loop h r (i + 1) sol rest
    else
      let ds := List.range' p.surgery_release_day
        (dueI.toNat + 1 - p.surgery_release_day)
      let rms := r.shufRooms i
        ((h.rooms.filter (fun rm =>
          decide (rm.id ∉ p.incompatible_room_ids))).map Room.id)
      let ots := r.shufOts i (h.operating_theaters.map Theater.id)
      match build_place h sol p.id
          (ds.flatMap (fun d => rms.flatMap (fun rm =>
            ots.map (fun ot => (d, rm, ot))))) with
      | none => none
      | some sol2 => build_patients_loop h r (i + 1) sol2 rest

/-- Merge a room into a nurse's duty record for a slot, or start a new
record (`found_assignment` logic of the builder). -/
def mergeRecord (asg : List NAssign) (d : Nat) (sn : String)
    (rm : String) : List NAssign :=
  match asg with
  | [] => [⟨d, sn, [rm]⟩]
  | a :: rest =>
    if a.day = d ∧ a.shift = sn then
      (if rm ∈ a.rooms then a else { a with rooms := a.rooms ++ [rm] })
        :: rest
    else a :: mergeRecord rest d sn rm

/-- Merge one assignment into `nurse_assignments_by_id` (insertion order of
nurse ids preserved). -/
def mergeAssign (acc : List (String × List NAssign)) (nid : String)
    (d : Nat) (sn : String) (rm : String) : List (String × List NAssign) :=
  match acc with
  | [] => [(nid, [⟨d, sn, [rm]⟩])]
  | (id0, asg) :: rest =>
    if id0 = nid then (id0, mergeRecord asg d sn rm) :: rest
    else (id0, asg) :: mergeAssign rest nid d sn rm

/-- Update the per-slot maximum required skill (the
`room_shift_requirements` dict: first-insertion key order, max-merged
values). -/
def updReq (acc : List ((Nat × String × String) × Nat))
    (k : Nat × String × String) (v : Nat) :
    List ((Nat × String × String) × Nat) :=
  match acc with
  | [] => [(k, v)]
  | (k0, v0) :: rest =>
    if k0 = k then (k0, max v0 v) :: rest
    else (k0, v0) :: updReq rest k v

/-- `room_shift_requirements`: for every occupancy triple and shift with a
valid `day_offset * len(shift_types) + shift_idx` index (note: the builder
uses `len(shift_types)` here, unlike S2/S4's hard-coded 3), the maximum
required skill per (day, shift, room). -/
def build_requirements (h : Hospital) (sol : Solution) :
    List ((Nat × String × String) × Nat) :=
  ((get_all_patients_in_rooms h sol).flatMap (fun t =>
    h.shift_types.enum.filterMap (fun si =>
      (t.2.2.skill_level_required.get?
        ((t.1 - t.2.2.admission_day) * h.shift_types.length + si.1)).map
        (fun req => ((t.1, si.2, t.2.1), req))))).foldl
    (fun acc kv => updReq acc kv.1 kv.2) []

/-- The nurse-assignment loop of the builder: for each requirement slot in
order, choose a rostered nurse with sufficient skill (if any) and merge the
room into that nurse's duty records. The oracle index advances once per
`random.choice` call. -/
def assign_nurses_loop (h : Hospital) (r : BuildRand) (j : Nat)
    (acc : List (String × List NAssign)) :
    List ((Nat × String × String) × Nat) → List (String × List NAssign)
  | [] => acc
  | ((d, sn, rm), req) :: rest =>
    let avail := h.nurses.filter (fun n =>
      (n.working_shifts.any (fun ws =>
        decide (ws.day = d) && decide (ws.shift = sn)))
      && decide (req ≤ n.skill_level))
    if hne : avail = [] then assign_nurses_loop h r j acc rest
    else
      let nu := listPick avail (r.pickNurse j) hne
      assign_nurses_loop h r (j + 1) (mergeAssign acc nu.id d sn rm) rest

/-- `RVNS._generate_initial_solution`: schedule mandatory patients
(ascending due day) then optional ones (ascending release day), each into
the first hard-feasible (day, room, theater) combination, then assign
nurses greedily per occupied slot. -/
def generate_initial_solution (h : Hospital) (r : BuildRand) :
    Option Solution :=
  let mand := sortedBy due_le
    ((pyDictValues Patient.id h.patients).filter (fun p => p.mandatory))
  let opt := sortedBy
    (fun a b => a.surgery_release_day ≤ b.surgery_release_day)
    ((pyDictValues Patient.id h.patients).filter (fun p => !p.mandatory))
  match build_patients_loop h r 0 ⟨[], []⟩ (mand ++ opt) with
  | none => none
  | some sol =>
    let reqs := build_requirements h sol
    let nurses := (assign_nurses_loop h r 0 [] reqs).map
      (fun e => NSol.mk e.1 e.2)
    some { sol with nurses := nurses }

/-! ## Basic lemmas about the dictionary model -/

theorem pyDictLookup_eq_none [DecidableEq κ] (key : α → κ) (l : List α)
    (k : κ) (h : ∀ x ∈ l, key x ≠ k) : pyDictLookup key l k = none := by
  induction l with
  | nil => rfl
  | cons x l ih =>
    simp only [pyDictLookup]
    rw [ih (fun y hy => h y (List.mem_cons_of_mem x hy))]
    simp [h x (List.mem_cons_self x l)]

theorem pyDictLookup_key_self [DecidableEq κ] (key : α → κ) (l : List α)
    (x : α) (hnd : (l.map key).Nodup) (hx : x ∈ l) :
    pyDictLookup key l (key x) = some x := by
  induction l with
  | nil => cases hx
  | cons y l ih =>
    simp only [List.map_cons, List.nodup_cons] at hnd
    rcases List.mem_cons.mp hx with rfl | hx
    · have hnone : pyDictLookup key l (key x) = none := by
        apply pyDictLookup_eq_none
        intro z hz hzk
        exact hnd.1 (hzk ▸ List.mem_map_of_mem key hz)
      simp [pyDictLookup, hnone]
    · simp only [pyDictLookup, ih hnd.2 hx]

theorem firstDedupAux_of_nodup [DecidableEq α] (l : List α) :
    ∀ seen, l.Nodup → (∀ a ∈ l, a ∉ seen) → firstDedupAux seen l = l := by
  induction l with
  | nil => intro seen _ _; rfl
  | cons a l ih =>
    intro seen hnd hdisj
    simp only [List.nodup_cons] at hnd
    simp only [firstDedupAux, if_neg (hdisj a (List.mem_cons_self a l))]
    rw [ih (seen ++ [a]) hnd.2]
    intro b hb
    simp only [List.mem_append, List.mem_singleton]
    rintro (hbs | rfl)
    · exact hdisj b (List.mem_cons_of_mem a hb) hbs
    · exact hnd.1 hb

theorem firstDedup_of_nodup [DecidableEq α] (l : List α) (h : l.Nodup) :
    firstDedup l = l :=
  firstDedupAux_of_nodup l [] h (by simp)

theorem pyDictValues_of_nodup [DecidableEq κ] (key : α → κ) (l : List α)
    (hnd : (l.map key).Nodup) : pyDictValues key l = l := by
  unfold pyDictValues
  rw [firstDedup_of_nodup _ hnd]
  induction l with
  | nil => rfl
  | cons x l ih =>
    have hnd' := hnd
    simp only [List.map_cons, List.nodup_cons] at hnd'
    simp only [List.map_cons, List.filterMap_cons]
    rw [pyDictLookup_key_self key (x :: l) x hnd (List.mem_cons_self x l)]
    have hcong : List.filterMap (pyDictLookup key (x :: l)) (l.map key)
        = List.filterMap (pyDictLookup key l) (l.map key) := by
      apply List.filterMap_congr
      intro k hk
      simp only [pyDictLookup]
      cases hlk : pyDictLookup key l k with
      | some y => rfl
      | none =>
        rcases List.mem_map.mp hk with ⟨z, hz, rfl⟩
        have hne : key x ≠ key z := fun he =>
          hnd'.1 (he ▸ List.mem_map_of_mem key hz)
        simp [hne]
    rw [hcong, ih hnd'.2]

theorem countP_split (p q : α → Bool) (l : List α) :
    l.countP (fun a => p a && q a) + l.countP (fun a => p a && !q a)
      = l.countP p := by
  induction l with
  | nil => rfl
  | cons a l ih =>
    simp only [List.countP_cons]
    cases hp : p a <;> cases hq : q a <;> simp [hp, hq] <;> omega

/-! ## Lemmas about `optTraverse` and the dict views -/

theorem optTraverse_append (f : α → Option β) (l1 l2 : List α) :
    optTraverse f (l1 ++ l2)
      = match optTraverse f l1 with
        | none => none
        | some a =>
          match optTraverse f l2 with
          | none => none
          | some b => some (a ++ b) := by
  induction l1 with
  | nil =>
    simp only [List.nil_append, optTraverse]
    cases optTraverse f l2 <;> rfl
  | cons x l ih =>
    simp only [List.cons_append, optTraverse]
    cases f x with
    | none => rfl
    | some b =>
      simp only [List.append_eq]
      rw [ih]
      cases optTraverse f l <;> cases optTraverse f l2 <;> rfl

theorem optTraverse_eq_none_of_mem (f : α → Option β) (l : List α) (x : α)
    (hx : x ∈ l) (hf : f x = none) : optTraverse f l = none := by
  induction l with
  | nil => cases hx
  | cons a l ih =>
    rcases List.mem_cons.mp hx with rfl | hx
    · simp [optTraverse, hf]
    · simp only [optTraverse]
      cases ha : f a with
      | none => rfl
      | some b => rw [ih hx]

theorem pyDictLookup_eq_some [DecidableEq κ] (key : α → κ) (l : List α)
    (k : κ) (x : α) (h : pyDictLookup key l k = some x) :
    key x = k ∧ x ∈ l := by
  induction l with
  | nil => cases h
  | cons y l ih =>
    simp only [pyDictLookup] at h
    cases hl : pyDictLookup key l k with
    | some z =>
      rw [hl] at h
      obtain rfl : z = x := by cases h; rfl
      exact ⟨(ih hl).1, List.mem_cons_of_mem y (ih hl).2⟩
    | none =>
      rw [hl] at h
      by_cases hk : key y = k
      · rw [if_pos hk] at h
        obtain rfl : y = x := by cases h; rfl
        exact ⟨hk, List.mem_cons_self y l⟩
      · rw [if_neg hk] at h
        cases h

theorem mem_pyDictValues [DecidableEq κ] (key : α → κ) (l : List α)
    (x : α) (hx : x ∈ pyDictValues key l) :
    pyDictLookup key l (key x) = some x := by
  unfold pyDictValues at hx
  rcases List.mem_filterMap.mp hx with ⟨k, _, hk⟩
  obtain rfl := (pyDictLookup_eq_some key l k x hk).1
  exact hk

theorem dedup_toFinset_eq [DecidableEq α] (l : List α) :
    l.dedup.toFinset = l.toFinset := by
  ext a
  simp [List.mem_toFinset, List.mem_dedup]

theorem sum_map_dedup_toFinset [DecidableEq α] (l : List α)
    (f : α → Nat) : ((l.dedup).map f).sum = l.toFinset.sum f := by
  rw [← List.sum_toFinset f (List.nodup_dedup l), dedup_toFinset_eq]

/-! ## Claim C6: unplaced-patient accounting -/

/-- Modelled from the spec's words: the total mandatory patient count of
the instance. -/
def mandatory_total (h : Hospital) : Nat :=
  (h.patients.filter (fun p => p.mandatory)).length

/-- Modelled from the spec's words: mandatory patients that have a
placement in the solution. -/
def mandatory_placed (h : Hospital) (sol : Solution) : Nat :=
  (h.patients.filter (fun p =>
    p.mandatory && decide (p.id ∈ sol.patients.map PSol.id))).length

/-- Modelled from the spec's words: non-mandatory patients of the instance
with no placement in the solution. -/
def optional_unplaced (h : Hospital) (sol : Solution) : Nat :=
  (h.patients.filter (fun p =>
    !p.mandatory && decide (p.id ∉ sol.patients.map PSol.id))).length

/-- Claim C6: on an instance with distinct patient ids and a solution with
distinct placement ids, the H5 violation count plus the number of placed
mandatory patients equals the total mandatory patient count, and the raw S8
cost is the number of unplaced optional patients times the weight. -/
theorem C6_unplaced_accounting (h : Hospital) (sol : Solution)
    (hnd : (h.patients.map Patient.id).Nodup)
    (_hsol : (sol.patients.map PSol.id).Nodup) :
    (∃ v, h5_mandatory_unscheduled sol h = v * HARD_VIOLATION_PENALTY ∧
      v + mandatory_placed h sol = mandatory_total h) ∧
    (∀ w, s8_unscheduled_optional sol h w = optional_unplaced h sol * w) := by
  constructor
  · refine ⟨(h.patients.countP (fun p =>
      p.mandatory && decide (p.id ∉ sol.patients.map PSol.id))), ?_, ?_⟩
    · unfold h5_mandatory_unscheduled
      rw [pyDictValues_of_nodup Patient.id h.patients hnd]
    · have hsplit := countP_split (fun p => p.mandatory)
        (fun p => decide (p.id ∉ sol.patients.map PSol.id)) h.patients
      unfold mandatory_placed mandatory_total
      rw [← List.countP_eq_length_filter, ← List.countP_eq_length_filter]
      have hpt : List.countP (fun p : Patient =>
          p.mandatory && !decide (p.id ∉ sol.patients.map PSol.id))
            h.patients
          = List.countP (fun p : Patient =>
          p.mandatory && decide (p.id ∈ sol.patients.map PSol.id))
            h.patients := by
        apply List.countP_congr
        intro p _
        simp [decide_not]
      rw [← hpt]
      exact hsplit
  · intro w
    unfold s8_unscheduled_optional optional_unplaced
    rw [pyDictValues_of_nodup Patient.id h.patients hnd,
      ← List.countP_eq_length_filter]

/-- A small concrete instance for the C6 witness: two patients, one
mandatory and placed, one optional and unplaced. -/
def wWeights : Weights := ⟨1, 1, 1, 1, 1, 1, 1, 1⟩

def patC6a : Patient :=
  ⟨"p1", true, "A", "adult", 1, 0, some 0, 10, "s1", [], [0, 0, 0],
    [0, 0, 0]⟩

def patC6b : Patient :=
  ⟨"p2", false, "A", "adult", 1, 0, none, 10, "s1", [], [0, 0, 0],
    [0, 0, 0]⟩

def hospC6 : Hospital :=
  ⟨3, ["0", "1"], ["early", "late", "night"], ["adult"], [],
    [patC6a, patC6b], [⟨"s1", [100, 100, 100]⟩], [⟨"t1", [100, 100, 100]⟩],
    [⟨"r1", 2⟩], [], wWeights⟩

def solC6 : Solution := ⟨[⟨"p1", 0, "r1", "t1"⟩], []⟩

/-- Witness for C6 at the concrete instance: H5 sees no violation
(`0 × penalty`), `0 + 1 = 1` mandatory patient accounted for, and S8 counts
the single unplaced optional patient. -/
theorem C6_unplaced_accounting_witness :
    (∃ v, h5_mandatory_unscheduled solC6 hospC6
        = v * HARD_VIOLATION_PENALTY ∧
      v + mandatory_placed hospC6 solC6 = mandatory_total hospC6) ∧
    (∀ w, s8_unscheduled_optional solC6 hospC6 w
        = optional_unplaced hospC6 solC6 * w) :=
  C6_unplaced_accounting hospC6 solC6 (by decide) (by decide)

/-! ## Claim C7: the gender scenario -/

def patC7a : Patient :=
  ⟨"p1", false, "A", "adult", 1, 0, none, 10, "s1", [], [0, 0, 0],
    [0, 0, 0]⟩

def patC7b : Patient :=
  ⟨"p2", false, "B", "adult", 1, 0, none, 10, "s1", [], [0, 0, 0],
    [0, 0, 0]⟩

def hospC7 : Hospital :=
  ⟨1, ["0", "1"], ["early", "late", "night"], ["adult"], [],
    [patC7a, patC7b], [⟨"s1", [100]⟩], [⟨"t1", [100]⟩], [⟨"r1", 2⟩], [],
    wWeights⟩

/-- Both patients in room r1 on day 0. -/
def solC7 : Solution :=
  ⟨[⟨"p1", 0, "r1", "t1"⟩, ⟨"p2", 0, "r1", "t1"⟩], []⟩

/-- The same solution with the first / second placement removed. -/
def solC7a : Solution := ⟨[⟨"p2", 0, "r1", "t1"⟩], []⟩

def solC7b : Solution := ⟨[⟨"p1", 0, "r1", "t1"⟩], []⟩

/-- Claim C7: one room, two placed patients of different genders
overlapping on day 0: H1 reports exactly one violation
(`1 × HARD_VIOLATION_PENALTY`), and removing either placement drops H1 to
0. -/
theorem C7_gender_scenario :
    h1_no_gender_mix solC7 hospC7 = 1 * HARD_VIOLATION_PENALTY ∧
    h1_no_gender_mix solC7a hospC7 = 0 ∧
    h1_no_gender_mix solC7b hospC7 = 0 := by
  refine ⟨?_, ?_, ?_⟩ <;> decide

/-! ## Claim C8: the minimum-skill scenario -/

def patC8 : Patient :=
  ⟨"p1", false, "A", "adult", 1, 0, none, 10, "s1", [], [0, 0, 0],
    [2, 0, 0]⟩

def hospC8 : Hospital :=
  ⟨1, ["0", "1", "2"], ["early", "late", "night"], ["adult"], [],
    [patC8], [⟨"s1", [100]⟩], [⟨"t1", [100]⟩], [⟨"r1", 2⟩],
    [⟨"n1", 1, [⟨0, "early", 10⟩]⟩], wWeights⟩

/-- Patient p1 in r1 on day 0; nurse n1 (skill 1) staffs (0, early, r1),
whose occupant requires skill 2. -/
def solC8 : Solution :=
  ⟨[⟨"p1", 0, "r1", "t1"⟩], [⟨"n1", [⟨0, "early", ["r1"]⟩]⟩]⟩

/-- The same solution with no nurse assignments at all. -/
def solC8n : Solution := ⟨[⟨"p1", 0, "r1", "t1"⟩], []⟩

/-- Claim C8: a solution with no nurse records has S2 cost 0 for every
instance and weight (an unstaffed slot contributes nothing), and in the
concrete scenario of a slot requiring skill 2 staffed by a skill-1 nurse
the S2 cost is exactly 1 (at weight 1). -/
theorem C8_min_skill :
    (∀ (h : Hospital) (w : Nat) (ps : List PSol),
      s2_minimum_skill_level ⟨ps, []⟩ h w = 0) ∧
    s2_minimum_skill_level solC8 hospC8 1 = 1 ∧
    s2_minimum_skill_level solC8n hospC8 1 = 0 := by
  refine ⟨?_, by decide, by decide⟩
  intro h w ps
  unfold s2_minimum_skill_level
  have hempty : ∀ k, get_nurse_assignments h ⟨ps, []⟩ k = none := by
    intro k
    rfl
  simp only [hempty]
  have hz : ((get_all_patients_in_rooms h ⟨ps, []⟩).map (fun t =>
      (h.shift_types.enum.map (fun si =>
        match t.2.2.skill_level_required.get?
            ((t.1 - t.2.2.admission_day) * 3 + si.1) with
        | none => 0
        | some _ => (0 : Nat))).sum)).sum = 0 := by
    apply List.sum_eq_zero
    intro x hx
    rcases List.mem_map.mp hx with ⟨t, _, rfl⟩
    apply List.sum_eq_zero
    intro y hy
    rcases List.mem_map.mp hy with ⟨si, _, rfl⟩
    cases t.2.2.skill_level_required.get?
        ((t.1 - t.2.2.admission_day) * 3 + si.1) <;> rfl
  rw [hz, Nat.zero_mul]

/-! ## Claim C10: unrostered (nurse, day, shift) slots under S4 -/

def patC10 : Patient :=
  ⟨"p1", false, "A", "adult", 1, 0, none, 10, "s1", [], [5, 0, 0],
    [0, 0, 0]⟩

/-- Nurse n1 has NO working shifts at all. -/
def hospC10 : Hospital :=
  ⟨1, ["0", "1"], ["early", "late", "night"], ["adult"], [],
    [patC10], [⟨"s1", [100]⟩], [⟨"t1", [100]⟩], [⟨"r1", 2⟩],
    [⟨"n1", 1, []⟩], wWeights⟩

/-- Nurse n1 is nevertheless assigned (0, early, r1), whose occupant
produces workload 5 on that shift. -/
def solC10 : Solution :=
  ⟨[⟨"p1", 0, "r1", "t1"⟩], [⟨"n1", [⟨0, "early", ["r1"]⟩]⟩]⟩

/-- Claim C10: when a nurse exists but has no working-shift entry matching
a (day, shift), `get_nurse_max_load` returns 0; consequently S4 counts the
whole summed workload of such a slot as excess — concretely, the workload-5
slot staffed by the unrostered nurse n1 yields S4 cost 5 (weight 1), with
no error and no skipping. -/
theorem C10_unrostered_slot_excess :
    (∀ (h : Hospital) (nid : String) (d : Nat) (sn : String) (nu : Nurse),
      nurses_dict h nid = some nu →
      (∀ ws ∈ nu.working_shifts, ¬(ws.day = d ∧ ws.shift = sn)) →
      get_nurse_max_load h nid d sn = 0) ∧
    s4_maximum_workload solC10 hospC10 1 = 5 := by
  refine ⟨?_, by decide⟩
  intro h nid d sn nu hnu hno
  unfold get_nurse_max_load
  rw [hnu]
  have hfind : nu.working_shifts.find?
      (fun ws => decide (ws.day = d) && decide (ws.shift = sn)) = none := by
    rw [List.find?_eq_none]
    intro ws hws
    simp only [Bool.and_eq_true, decide_eq_true_eq]
    exact fun hc => hno ws hws hc
  simp [hfind]

/-- Witness for C10: instantiated at the concrete instance — nurse n1 is in
the nurse dict, has no rostered shift for (0, early), and its max load
there is 0. -/
theorem C10_unrostered_slot_excess_witness :
    get_nurse_max_load hospC10 "n1" 0 "early" = 0 ∧
    s4_maximum_workload solC10 hospC10 1 = 5 :=
  ⟨C10_unrostered_slot_excess.1 hospC10 "n1" 0 "early" ⟨"n1", 1, []⟩
      (by decide) (by decide),
    C10_unrostered_slot_excess.2⟩

/-! ## Claim C1: handling of ids absent from the instance -/

def patC1 : Patient :=
  ⟨"q1", false, "A", "adult", 1, 0, none, 10, "s1", [], [0, 0, 0],
    [0, 0, 0]⟩

def hospC1 : Hospital :=
  ⟨1, ["0"], ["early", "late", "night"], ["adult"], [], [patC1],
    [⟨"s1", [100]⟩], [⟨"t1", [100]⟩], [⟨"r1", 1⟩], [], wWeights⟩

/-- Counterexample to claim C1: "ghost" is no patient/occupant id and
"missing" is no room id of `hospC1`, yet (a) `h7_room_capacity` on a
placement of the KNOWN patient q1 into the unknown room "missing" raises a
`KeyError` (`none`) at `hospital.room_dict[r_id]` instead of returning
normally, and (b) `s5_open_ots` does NOT skip the entry with the unknown
patient id "ghost": its (day, theater) pair is counted (cost 1, not 0). -/
theorem C1_skip_counterexample :
    get_patient_by_id hospC1 "ghost" = none ∧
    room_dict hospC1 "missing" = none ∧
    patient_dict hospC1 "q1" = some patC1 ∧
    h7_room_capacity ⟨[⟨"q1", 0, "missing", "t1"⟩], []⟩ hospC1 = none ∧
    s5_open_ots ⟨[⟨"ghost", 0, "r1", "t1"⟩], []⟩ hospC1 1 = 1 := by
  refine ⟨by decide, by decide, by decide, by decide, by decide⟩

/-- Appending a solution entry whose id resolves to nothing leaves the
occupancy expansion unchanged. -/
theorem trips_snoc_unknown (h : Hospital) (ps : List PSol) (ns : List NSol)
    (e : PSol) (hgp : get_patient_by_id h e.id = none) :
    get_all_patients_in_rooms h ⟨ps ++ [e], ns⟩
      = get_all_patients_in_rooms h ⟨ps, ns⟩ := by
  simp only [get_all_patients_in_rooms]
  rw [List.flatMap_append]
  simp [hgp]

/-- Claim C1 (amended): a solution entry referencing a patient id absent
from the Instance Model is skipped — it contributes nothing and raises
nothing — by the occupancy expansion and by every constraint function
except `s5_open_ots` (which still counts its (day, theater) pair, see the
counterexample); a nurse record with an unknown nurse id is skipped by the
nurse-coverage map; but `h7_room_capacity` raises a `KeyError` (returns no
value) whenever a placement of a KNOWN patient (with a nonempty stay
starting inside the horizon) references a room id absent from the room
table. -/
theorem C1_missing_id_amended (h : Hospital) (ps : List PSol)
    (ns : List NSol) (pid : String) (d : Nat) (r ot : String)
    (hgp : get_patient_by_id h pid = none)
    (pid2 : String) (d2 : Nat) (r2 ot2 : String)
    (pr : Patient ⊕ Occupant)
    (hgp2 : get_patient_by_id h pid2 = some pr)
    (hstay : 0 < prStay pr) (hday : d2 < h.days)
    (hroom : room_dict h r2 = none) :
    (get_all_patients_in_rooms h ⟨ps ++ [⟨pid, d, r, ot⟩], ns⟩
      = get_all_patients_in_rooms h ⟨ps, ns⟩) ∧
    (h1_no_gender_mix ⟨ps ++ [⟨pid, d, r, ot⟩], ns⟩ h
      = h1_no_gender_mix ⟨ps, ns⟩ h) ∧
    (h2_compatible_rooms ⟨ps ++ [⟨pid, d, r, ot⟩], ns⟩ h
      = h2_compatible_rooms ⟨ps, ns⟩ h) ∧
    (h7_room_capacity ⟨ps ++ [⟨pid, d, r, ot⟩], ns⟩ h
      = h7_room_capacity ⟨ps, ns⟩ h) ∧
    (∀ w, s1_mixed_age_penalty ⟨ps ++ [⟨pid, d, r, ot⟩], ns⟩ h w
      = s1_mixed_age_penalty ⟨ps, ns⟩ h w) ∧
    (∀ w, s2_minimum_skill_level ⟨ps ++ [⟨pid, d, r, ot⟩], ns⟩ h w
      = s2_minimum_skill_level ⟨ps, ns⟩ h w) ∧
    (∀ w, s3_continuity_of_care ⟨ps ++ [⟨pid, d, r, ot⟩], ns⟩ h w
      = s3_continuity_of_care ⟨ps, ns⟩ h w) ∧
    (∀ w, s4_maximum_workload ⟨ps ++ [⟨pid, d, r, ot⟩], ns⟩ h w
      = s4_maximum_workload ⟨ps, ns⟩ h w) ∧
    (h3_surgeon_overtime ⟨ps ++ [⟨pid, d, r, ot⟩], ns⟩ h
      = h3_surgeon_overtime ⟨ps, ns⟩ h) ∧
    (h4_ot_overtime ⟨ps ++ [⟨pid, d, r, ot⟩], ns⟩ h
      = h4_ot_overtime ⟨ps, ns⟩ h) ∧
    (∀ w, s6_surgeon_transfer ⟨ps ++ [⟨pid, d, r, ot⟩], ns⟩ h w
      = s6_surgeon_transfer ⟨ps, ns⟩ h w) ∧
    (h5_mandatory_unscheduled ⟨ps ++ [⟨pid, d, r, ot⟩], ns⟩ h
      = h5_mandatory_unscheduled ⟨ps, ns⟩ h) ∧
    (h6_admission_day ⟨ps ++ [⟨pid, d, r, ot⟩], ns⟩ h
      = h6_admission_day ⟨ps, ns⟩ h) ∧
    (∀ w, s7_admission_delay ⟨ps ++ [⟨pid, d, r, ot⟩], ns⟩ h w
      = s7_admission_delay ⟨ps, ns⟩ h w) ∧
    (∀ w, s8_unscheduled_optional ⟨ps ++ [⟨pid, d, r, ot⟩], ns⟩ h w
      = s8_unscheduled_optional ⟨ps, ns⟩ h w) ∧
    (∀ (nid : String) (asg : List NAssign) (k : Nat × String × String),
      nurses_dict h nid = none →
      get_nurse_assignments h ⟨ps, ⟨nid, asg⟩ :: ns⟩ k
        = get_nurse_assignments h ⟨ps, ns⟩ k) ∧
    (h7_room_capacity ⟨ps ++ [⟨pid2, d2, r2, ot2⟩], ns⟩ h = none) := by
  have htr := trips_snoc_unknown h ps ns ⟨pid, d, r, ot⟩ hgp
  have hidne : ∀ p : Patient, p ∈ pyDictValues Patient.id h.patients →
      p.id ≠ pid := by
    intro p hp he
    have hlk := mem_pyDictValues Patient.id h.patients p hp
    have : get_patient_by_id h pid = some (Sum.inl p) := by
      unfold get_patient_by_id patient_dict
      rw [← he, hlk]
    rw [hgp] at this
    cases this
  refine ⟨htr, ?_, ?_, ?_, ?_, ?_, ?_, ?_, ?_, ?_, ?_, ?_, ?_, ?_, ?_,
    ?_, ?_⟩
  · simp only [h1_no_gender_mix]
    rw [htr]
  · simp only [h2_compatible_rooms, List.countP_append]
    have : List.countP (fun ps =>
        match get_patient_by_id h ps.id with
        | some (Sum.inl p) => decide (ps.room ∈ p.incompatible_room_ids)
        | _ => false) [(⟨pid, d, r, ot⟩ : PSol)] = 0 := by
      simp [List.countP, List.countP.go, hgp]
    rw [this, Nat.add_zero]
  · simp only [h7_room_capacity]
    rw [htr]
  · intro w
    simp only [s1_mixed_age_penalty]
    rw [htr]
  · intro w
    simp only [s2_minimum_skill_level]
    rw [htr]
    rfl
  · intro w
    simp only [s3_continuity_of_care]
    have hterm : ∀ q, s3_patient_term h ⟨ps ++ [⟨pid, d, r, ot⟩], ns⟩ q
        = s3_patient_term h ⟨ps, ns⟩ q := by
      intro q
      unfold s3_patient_term
      cases hq : get_patient_by_id h q with
      | none => rfl
      | some pr2 =>
        have hne : pid ≠ q := by
          rintro rfl
          rw [hgp] at hq
          cases hq
        have hfind : get_solution_patient_by_id
            ⟨ps ++ [⟨pid, d, r, ot⟩], ns⟩ q
            = get_solution_patient_by_id ⟨ps, ns⟩ q := by
          unfold get_solution_patient_by_id
          rw [List.find?_append]
          have h1 : List.find? (fun x => decide (x.id = q))
              [(⟨pid, d, r, ot⟩ : PSol)] = none := by
            simp [hne]
          rw [h1]
          cases List.find? (fun x => decide (x.id = q)) ps <;> rfl
        rw [hfind]
        rfl
    rw [funext hterm]
    congr 1
    simp only [List.map_append, List.map_cons, List.map_nil]
    rw [sum_map_dedup_toFinset, sum_map_dedup_toFinset]
    have hpidz : s3_patient_term h ⟨ps, ns⟩ pid = 0 := by
      unfold s3_patient_term
      rw [hgp]
    have hset : ((ps.map PSol.id ++ [pid])
        ++ h.occupants.map Occupant.id).toFinset
        = insert pid
          ((ps.map PSol.id ++ h.occupants.map Occupant.id).toFinset) := by
      ext a
      simp only [List.mem_toFinset, List.mem_append, List.mem_singleton,
        Finset.mem_insert]
      tauto
    rw [hset]
    by_cases hmem : pid ∈
        (ps.map PSol.id ++ h.occupants.map Occupant.id).toFinset
    · rw [Finset.insert_eq_self.mpr hmem]
    · rw [Finset.sum_insert hmem, hpidz, Nat.zero_add]
  · intro w
    simp only [s4_maximum_workload, s4_pairs]
    rw [htr]
    rfl
  · simp only [h3_surgeon_overtime]
    rw [optTraverse_append]
    have he : h3_contrib h ⟨pid, d, r, ot⟩ = some none := by
      simp [h3_contrib, hgp]
    simp only [optTraverse, he]
    cases optTraverse (h3_contrib h) ps with
    | none => rfl
    | some l => simp [List.filterMap_append]
  · simp only [h4_ot_overtime]
    rw [optTraverse_append]
    have he : h4_contrib h ⟨pid, d, r, ot⟩ = some none := by
      simp [h4_contrib, hgp]
    simp only [optTraverse, he]
    cases optTraverse (h4_contrib h) ps with
    | none => rfl
    | some l => simp [List.filterMap_append]
  · intro w
    simp only [s6_surgeon_transfer]
    rw [optTraverse_append]
    have he : s6_contrib h ⟨pid, d, r, ot⟩ = some none := by
      simp [s6_contrib, hgp]
    simp only [optTraverse, he]
    cases optTraverse (s6_contrib h) ps with
    | none => rfl
    | some l => simp [List.filterMap_append]
  · simp only [h5_mandatory_unscheduled]
    congr 1
    apply List.countP_congr
    intro p hp
    have hne := hidne p hp
    have hdec : decide (p.id ∉ (ps ++ [(⟨pid, d, r, ot⟩ : PSol)]).map
        PSol.id) = decide (p.id ∉ ps.map PSol.id) := by
      apply decide_eq_decide.mpr
      simp [hne]
    rw [hdec]
  · simp only [h6_admission_day]
    rw [optTraverse_append]
    have he : h6_entry h ⟨pid, d, r, ot⟩ = some 0 := by
      simp [h6_entry, hgp]
    simp only [optTraverse, he]
    cases optTraverse (h6_entry h) ps with
    | none => rfl
    | some l => simp
  · intro w
    simp only [s7_admission_delay]
    rw [optTraverse_append]
    have he : s7_entry h ⟨pid, d, r, ot⟩ = some 0 := by
      simp [s7_entry, hgp]
    simp only [optTraverse, he]
    cases optTraverse (s7_entry h) ps with
    | none => rfl
    | some l => simp
  · intro w
    simp only [s8_unscheduled_optional]
    congr 1
    apply List.countP_congr
    intro p hp
    have hne := hidne p hp
    have hdec : decide (p.id ∉ (ps ++ [(⟨pid, d, r, ot⟩ : PSol)]).map
        PSol.id) = decide (p.id ∉ ps.map PSol.id) := by
      apply decide_eq_decide.mpr
      simp [hne]
    rw [hdec]
  · intro nid asg k hnone
    simp only [get_nurse_assignments, nurse_assignment_pairs,
      List.flatMap_cons]
    rw [hnone]
    rfl
  · simp only [h7_room_capacity]
    apply Option.map_eq_none.mpr
    apply optTraverse_eq_none_of_mem _ _ (d2, r2)
    · rw [List.mem_dedup, List.mem_map]
      refine ⟨(d2, r2, prEntry pr d2), ?_, rfl⟩
      apply List.mem_append_left
      apply List.mem_flatMap.mpr
      refine ⟨⟨pid2, d2, r2, ot2⟩, List.mem_append_right _
        (List.mem_singleton_self _), ?_⟩
      rw [hgp2]
      apply List.mem_filterMap.mpr
      refine ⟨0, List.mem_range.mpr hstay, ?_⟩
      simp [hday]
    · rw [hroom]

/-- Witness for C1 (amended) at the concrete instance `hospC1`: the H2
score ignores the entry with the unknown id "ghost", and H7 raises on the
placement of the known patient q1 into the unknown room "missing". -/
theorem C1_missing_id_amended_witness :
    (h2_compatible_rooms ⟨[] ++ [⟨"ghost", 0, "r1", "t1"⟩], []⟩ hospC1
      = h2_compatible_rooms ⟨[], []⟩ hospC1) ∧
    (h7_room_capacity ⟨[] ++ [⟨"q1", 0, "missing", "t1"⟩], []⟩ hospC1
      = none) := by
  have hmain := C1_missing_id_amended hospC1 [] [] "ghost" 0 "r1" "t1"
    (by decide) "q1" 0 "missing" "t1" (Sum.inl patC1) (by decide)
    (by decide) (by decide) (by decide)
  exact ⟨hmain.2.2.1, hmain.2.2.2.2.2.2.2.2.2.2.2.2.2.2.2.2⟩

/-! ## Claim C3: the initial solution builder and the hard constraints -/

/-- `checks_all h s = some true` says exactly that the six hard constraints
checked during construction evaluate to zero violations. -/
theorem checks_all_true_elim (h : Hospital) (s : Solution)
    (hc : checks_all h s = some true) :
    h1_no_gender_mix s h = 0 ∧ h2_compatible_rooms s h = 0 ∧
    h7_room_capacity s h = some 0 ∧ h3_surgeon_overtime s h = some 0 ∧
    h4_ot_overtime s h = some 0 ∧ h6_admission_day s h = some 0 := by
  by_cases e1 : h1_no_gender_mix s h = 0
  case neg => simp [checks_all, e1] at hc
  by_cases e2 : h2_compatible_rooms s h = 0
  case neg => simp [checks_all, e1, e2] at hc
  cases e7 : h7_room_capacity s h with
  | none => simp [checks_all, e1, e2, e7] at hc
  | some v7 =>
    by_cases e7z : v7 = 0
    case neg => simp [checks_all, e1, e2, e7, e7z] at hc
    cases e3 : h3_surgeon_overtime s h with
    | none => simp [checks_all, e1, e2, e7, e7z, e3] at hc
    | some v3 =>
      by_cases e3z : v3 = 0
      case neg => simp [checks_all, e1, e2, e7, e7z, e3, e3z] at hc
      cases e4 : h4_ot_overtime s h with
      | none => simp [checks_all, e1, e2, e7, e7z, e3, e3z, e4] at hc
      | some v4 =>
        by_cases e4z : v4 = 0
        case neg =>
          simp [checks_all, e1, e2, e7, e7z, e3, e3z, e4, e4z] at hc
        cases e6 : h6_admission_day s h with
        | none =>
          simp [checks_all, e1, e2, e7, e7z, e3, e3z, e4, e4z, e6] at hc
        | some v6 =>
          have e6z : v6 = 0 := by
            simpa [checks_all, e1, e2, e7, e7z, e3, e3z, e4, e4z, e6]
              using hc
          subst e7z e3z e4z e6z
          exact ⟨e1, e2, rfl, rfl, rfl, rfl⟩

/-- `build_place` either leaves the solution unchanged or returns a
solution on which all six construction checks are clean. -/
theorem build_place_sound (h : Hospital) (sol : Solution) (pid : String) :
    ∀ (cands : List (Nat × String × String)) (out : Solution),
      build_place h sol pid cands = some out →
      out = sol ∨ checks_all h out = some true := by
  intro cands
  induction cands with
  | nil =>
    intro out hout
    simp only [build_place] at hout
    exact Or.inl (Option.some.inj hout).symm
  | cons c rest ih =>
    intro out hout
    obtain ⟨d, rm, ot⟩ := c
    simp only [build_place] at hout
    cases hc : checks_all h
        { sol with patients := sol.patients ++ [⟨pid, d, rm, ot⟩] } with
    | none => rw [hc] at hout; cases hout
    | some b =>
      cases b with
      | true =>
        rw [hc] at hout
        exact Or.inr ((Option.some.inj hout) ▸ hc)
      | false =>
        rw [hc] at hout
        exact ih out hout

/-- Invariant of the builder's per-patient loop: once the accumulated
solution passes all six construction checks, so does every later one. -/
theorem build_patients_loop_sound (h : Hospital) (r : BuildRand) :
    ∀ (plist : List Patient) (i : Nat) (sol out : Solution),
      checks_all h sol = some true →
      build_patients_loop h r i sol plist = some out →
      checks_all h out = some true := by
  intro plist
  induction plist with
  | nil =>
    intro i sol out hinv hout
    simp only [build_patients_loop] at hout
    exact (Option.some.inj hout) ▸ hinv
  | cons p rest ih =>
    intro i sol out hinv hout
    simp only [build_patients_loop] at hout
    by_cases hskip : (p.surgery_release_day : Int) >
        (match p.surgery_due_day with
          | some dd => (dd : Int)
          | none => (h.days : Int) - (p.length_of_stay : Int))
    · rw [if_pos hskip] at hout
      exact ih (i + 1) sol out hinv hout
    · rw [if_neg hskip] at hout
      cases hbp : build_place h sol p.id
          ((List.range' p.surgery_release_day
            ((match p.surgery_due_day with
              | some dd => (dd : Int)
              | none =>
                (h.days : Int) - (p.length_of_stay : Int)).toNat + 1
              - p.surgery_release_day)).flatMap (fun d =>
            (r.shufRooms i ((h.rooms.filter (fun rm =>
              decide (rm.id ∉ p.incompatible_room_ids))).map
                Room.id)).flatMap (fun rm =>
              (r.shufOts i (h.operating_theaters.map Theater.id)).map
                (fun ot => (d, rm, ot))))) with
      | none => rw [hbp] at hout; cases hout
      | some sol2 =>
        rw [hbp] at hout
        rcases build_place_sound h sol p.id _ sol2 hbp with rfl | hok
        · exact ih (i + 1) sol2 out hinv hout
        · exact ih (i + 1) sol2 out hok hout

/-- Claim C3 (amended): PROVIDED the pre-admitted occupants alone violate
none of H1, H2, H7, H3, H4, H6 (i.e. the six construction checks pass on
the empty solution — the builder re-checks all six on every tentative
placement, so this is the only source of violations it cannot avoid), the
built solution has zero violations under each of the six, for every
instance and every randomization; patients with no clean combination are
left unscheduled rather than placed in violation. (H5, about mandatory
patients left unscheduled, is NOT among the checked constraints.) -/
theorem C3_initial_solution_amended (h : Hospital) (r : BuildRand)
    (hocc : checks_all h ⟨[], []⟩ = some true) (sol : Solution)
    (hbuild : generate_initial_solution h r = some sol) :
    h1_no_gender_mix sol h = 0 ∧ h2_compatible_rooms sol h = 0 ∧
    h7_room_capacity sol h = some 0 ∧ h3_surgeon_overtime sol h = some 0 ∧
    h4_ot_overtime sol h = some 0 ∧ h6_admission_day sol h = some 0 := by
  simp only [generate_initial_solution] at hbuild
  cases hb : build_patients_loop h r 0 ⟨[], []⟩
      (sortedBy due_le ((pyDictValues Patient.id h.patients).filter
        (fun p => p.mandatory))
      ++ sortedBy (fun a b => a.surgery_release_day ≤ b.surgery_release_day)
        ((pyDictValues Patient.id h.patients).filter
          (fun p => !p.mandatory))) with
  | none => rw [hb] at hbuild; cases hbuild
  | some sol0 =>
    rw [hb] at hbuild
    have hinv := build_patients_loop_sound h r _ 0 ⟨[], []⟩ sol0 hocc hb
    have heq := Option.some.inj hbuild
    subst heq
    exact checks_all_true_elim h _ hinv

def occC3a : Occupant := ⟨"o1", "A", "adult", 1, [0, 0, 0], [0, 0, 0], "r1"⟩

def occC3b : Occupant := ⟨"o2", "A", "adult", 1, [0, 0, 0], [0, 0, 0], "r1"⟩

/-- One room of capacity 1 already over-filled by two pre-admitted
occupants; no patients at all. -/
def hospC3 : Hospital :=
  ⟨1, ["0"], ["early", "late", "night"], ["adult"], [occC3a, occC3b], [],
    [⟨"s1", [100]⟩], [⟨"t1", [100]⟩], [⟨"r1", 1⟩], [], wWeights⟩

/-- Counterexample to claim C3 as stated: on `hospC3` the builder returns
normally (the empty solution — there is nothing to schedule), yet H7
reports one violation (`some 1000000`), not zero: the claim's "zero
violations for every instance" fails on instances whose occupants alone
violate a constraint. -/
theorem C3_initial_solution_counterexample :
    generate_initial_solution hospC3 idBuildRand = some ⟨[], []⟩ ∧
    h7_room_capacity ⟨[], []⟩ hospC3 = some 1000000 := by
  refine ⟨by decide, by decide⟩

def patC3w : Patient :=
  ⟨"p1", false, "A", "adult", 1, 0, none, 10, "s1", [], [0, 0, 0],
    [0, 0, 0]⟩

def hospC3w : Hospital :=
  ⟨1, ["0"], ["early", "late", "night"], ["adult"], [], [patC3w],
    [⟨"s1", [100]⟩], [⟨"t1", [100]⟩], [⟨"r1", 1⟩], [], wWeights⟩

/-- Witness for C3 (amended) on a concrete clean instance: the builder
places the single optional patient and all six checked constraints are
zero on its output. -/
theorem C3_initial_solution_amended_witness :
    h1_no_gender_mix ⟨[⟨"p1", 0, "r1", "t1"⟩], []⟩ hospC3w = 0 ∧
    h2_compatible_rooms ⟨[⟨"p1", 0, "r1", "t1"⟩], []⟩ hospC3w = 0 ∧
    h7_room_capacity ⟨[⟨"p1", 0, "r1", "t1"⟩], []⟩ hospC3w = some 0 ∧
    h3_surgeon_overtime ⟨[⟨"p1", 0, "r1", "t1"⟩], []⟩ hospC3w = some 0 ∧
    h4_ot_overtime ⟨[⟨"p1", 0, "r1", "t1"⟩], []⟩ hospC3w = some 0 ∧
    h6_admission_day ⟨[⟨"p1", 0, "r1", "t1"⟩], []⟩ hospC3w = some 0 :=
  C3_initial_solution_amended hospC3w idBuildRand (by decide)
    ⟨[⟨"p1", 0, "r1", "t1"⟩], []⟩ (by decide)

/-! ## Claims C4 and C5: monotone acceptance in VND and in the RVNS loop -/

theorem ls_loop_mono (h : Hospital) (rs0 : Nat → OpRand) (s0 : Solution)
    (c0 k0 : Nat) :
    evaluate_solution h s0 = some c0 →
    ∀ out, ls_loop h rs0 s0 c0 k0 = some out →
    ∃ c2, evaluate_solution h out = some c2 ∧ c2 ≤ c0 := by
  induction rs0, s0, c0, k0 using ls_loop.induct h with
  | case1 rs s c k hk hget =>
    intro _ out hout
    rw [ls_loop, dif_pos hk] at hout
    simp only [List.get?_eq_getElem?] at hget
    simp [hget] at hout
  | case2 rs s c k hk f hget hop =>
    intro _ out hout
    rw [ls_loop, dif_pos hk] at hout
    simp only [List.get?_eq_getElem?] at hget
    simp [hget, hop] at hout
  | case3 rs s c k hk f hget s2 hop hev2 =>
    intro _ out hout
    rw [ls_loop, dif_pos hk] at hout
    simp only [List.get?_eq_getElem?] at hget
    simp [hget, hop, hev2] at hout
  | case4 rs s c k hk f hget s2 hop c2 hev2 hlt ih =>
    intro _ out hout
    rw [ls_loop, dif_pos hk] at hout
    simp only [hget, hop, hev2] at hout
    rw [dif_pos hlt] at hout
    obtain ⟨c3, hc3, hle⟩ := ih hev2 out hout
    exact ⟨c3, hc3, le_trans hle (le_of_lt hlt)⟩
  | case5 rs s c k hk f hget s2 hop c2 hev2 hlt ih =>
    intro hev out hout
    rw [ls_loop, dif_pos hk] at hout
    simp only [hget, hop, hev2] at hout
    rw [dif_neg hlt] at hout
    exact ih hev out hout
  | case6 rs s c k hk =>
    intro hev out hout
    rw [ls_loop, dif_neg hk] at hout
    obtain rfl := Option.some.inj hout
    exact ⟨c, hev, le_refl c⟩

/-- Claim C4: for every input solution, every randomization, and every run
of VND local search that returns (all evaluations succeeding), the returned
solution's total cost is at most the input solution's total cost: a
neighbor is adopted only on a strictly lower evaluated cost (resetting
`k` to 0, otherwise advancing until `k = k_max`). -/
theorem C4_local_search_monotone (h : Hospital) (rs : Nat → OpRand)
    (sol out : Solution) (c : Nat)
    (hin : evaluate_solution h sol = some c)
    (hls : local_search h rs sol = some out) :
    ∃ c2, evaluate_solution h out = some c2 ∧ c2 ≤ c := by
  unfold local_search at hls
  simp only [hin] at hls
  exact ls_loop_mono h rs sol c 0 hin out hls

/-- One non-improving VND step (the neighbor re-produces the current
solution, whose cost cannot beat itself): `k` advances by one. -/
theorem ls_loop_step_noimp (h : Hospital) (rs : Nat → OpRand)
    (s : Solution) (c k : Nat) (f : OpRand → Solution → Option Solution)
    (hk : k < k_max h) (hget : (neighborhoods h)[k]? = some f)
    (hop : f (rs 0) s = some s)
    (hev : evaluate_solution h s = some c) :
    ls_loop h rs s c k = ls_loop h (fun i => rs (i + 1)) s c (k + 1) := by
  conv_lhs => rw [ls_loop]
  rw [dif_pos hk]
  simp only [List.get?_eq_getElem?, hget, hop, hev]
  rw [dif_neg (lt_irrefl c)]

theorem ls_loop_done (h : Hospital) (rs : Nat → OpRand) (s : Solution)
    (c k : Nat) (hk : ¬k < k_max h) : ls_loop h rs s c k = some s := by
  rw [ls_loop, dif_neg hk]

/-- A degenerate concrete instance (no patients, occupants or nurses) on
which every operator is the identity and every cost is 0. -/
def hospW : Hospital :=
  ⟨1, ["0"], ["early", "late", "night"], ["adult"], [], [], [], [], [], [],
    wWeights⟩

def rsW : Nat → OpRand := fun _ => idRand

def solW : Solution := ⟨[], []⟩

/-- On `hospW`, local search cycles through all five operators without
improvement and returns its input. -/
theorem ls_empty : local_search hospW rsW solW = some solW := by
  have hev : evaluate_solution hospW solW = some 0 := by decide
  have h5 : ∀ rs : Nat → OpRand, ls_loop hospW rs solW 0 5 = some solW :=
    fun rs => ls_loop_done hospW rs solW 0 5 (by decide)
  have h4 : ∀ rs : Nat → OpRand, ls_loop hospW rs solW 0 4 = some solW := by
    intro rs
    rw [ls_loop_step_noimp hospW rs solW 0 4 _ (by decide) rfl rfl hev]
    exact h5 _
  have h3 : ∀ rs : Nat → OpRand, ls_loop hospW rs solW 0 3 = some solW := by
    intro rs
    rw [ls_loop_step_noimp hospW rs solW 0 3 _ (by decide) rfl rfl hev]
    exact h4 _
  have h2 : ∀ rs : Nat → OpRand, ls_loop hospW rs solW 0 2 = some solW := by
    intro rs
    rw [ls_loop_step_noimp hospW rs solW 0 2 _ (by decide) rfl rfl hev]
    exact h3 _
  have h1 : ∀ rs : Nat → OpRand, ls_loop hospW rs solW 0 1 = some solW := by
    intro rs
    rw [ls_loop_step_noimp hospW rs solW 0 1 _ (by decide) rfl rfl hev]
    exact h2 _
  have h0 : ∀ rs : Nat → OpRand, ls_loop hospW rs solW 0 0 = some solW := by
    intro rs
    rw [ls_loop_step_noimp hospW rs solW 0 0 _ (by decide) rfl rfl hev]
    exact h1 _
  unfold local_search
  simp only [hev]
  exact h0 rsW

/-- Witness for C4: on the concrete degenerate instance local search
returns its input of cost 0, and the theorem bounds the output cost by
0. -/
theorem C4_local_search_monotone_witness :
    ∃ c2, evaluate_solution hospW solW = some c2 ∧ c2 ≤ 0 :=
  C4_local_search_monotone hospW rsW solW solW 0 (by decide) ls_empty

theorem solve_inner_mono (h : Hospital) (rs0 : Nat → Nat → Nat → OpRand)
    (b0 : Solution) (c0 k0 : Nat) :
    ∀ out, solve_inner h rs0 b0 c0 k0 = some out →
      out.2 ≤ c0 ∧ (out.1 ≠ b0 → out.2 < c0) := by
  induction rs0, b0, c0, k0 using solve_inner.induct h with
  | case1 rs best bc k hk hsh =>
    intro out hout
    rw [solve_inner, dif_pos hk] at hout
    simp [hsh] at hout
  | case2 rs best bc k hk sp hsh hls =>
    intro out hout
    rw [solve_inner, dif_pos hk] at hout
    simp [hsh, hls] at hout
  | case3 rs best bc k hk sp hsh s2 hls hev =>
    intro out hout
    rw [solve_inner, dif_pos hk] at hout
    simp [hsh, hls, hev] at hout
  | case4 rs best bc k hk sp hsh s2 hls c2 hev hlt ih =>
    intro out hout
    rw [solve_inner, dif_pos hk] at hout
    simp only [hsh, hls, hev] at hout
    rw [dif_pos hlt] at hout
    obtain ⟨hle, _⟩ := ih out hout
    exact ⟨le_trans hle (le_of_lt hlt),
      fun _ => lt_of_le_of_lt hle hlt⟩
  | case5 rs best bc k hk sp hsh s2 hls c2 hev hlt ih =>
    intro out hout
    rw [solve_inner, dif_pos hk] at hout
    simp only [hsh, hls, hev] at hout
    rw [dif_neg hlt] at hout
    exact ih out hout
  | case6 rs best bc k hk =>
    intro out hout
    rw [solve_inner, dif_neg hk] at hout
    obtain rfl := Option.some.inj hout
    exact ⟨le_refl _, fun hne => absurd rfl hne⟩

theorem solve_outer_mono (h : Hospital) :
    ∀ (fuel : Nat) (rs : Nat → Nat → Nat → Nat → OpRand)
      (best : Solution) (bc : Nat) (out : Solution × Nat),
      solve_outer h rs best bc fuel = some out →
      out.2 ≤ bc ∧ (out.1 ≠ best → out.2 < bc) := by
  intro fuel
  induction fuel with
  | zero =>
    intro rs best bc out hout
    simp only [solve_outer] at hout
    obtain rfl := Option.some.inj hout
    exact ⟨le_refl _, fun hne => absurd rfl hne⟩
  | succ n ih =>
    intro rs best bc out hout
    simp only [solve_outer] at hout
    cases hin : solve_inner h (rs 0) best bc 1 with
    | none => rw [hin] at hout; cases hout
    | some p =>
      obtain ⟨b2, c2⟩ := p
      rw [hin] at hout
      obtain ⟨h1, h2⟩ := solve_inner_mono h (rs 0) best bc 1 (b2, c2) hin
      obtain ⟨h3, h4⟩ := ih _ b2 c2 out hout
      refine ⟨le_trans h3 h1, ?_⟩
      intro hne
      by_cases hb : out.1 = b2
      · exact lt_of_le_of_lt h3 (h2 (hb ▸ hne))
      · exact lt_of_lt_of_le (h4 hb) h1

/-- On a strictly improving candidate, the inner RVNS loop replaces the
best solution and cost and restarts from `k = 1`. -/
theorem solve_inner_reset (h : Hospital) (rs : Nat → Nat → Nat → OpRand)
    (best : Solution) (bc k : Nat) (sp s2 : Solution) (c2 : Nat)
    (hk : k ≤ k_max h) (hsh : shake h (rs 0 0) best k = some sp)
    (hls : local_search h (rs 0 1) sp = some s2)
    (hev : evaluate_solution h s2 = some c2) (hlt : c2 < bc) :
    solve_inner h rs best bc k
      = solve_inner h (fun t => rs (t + 1)) s2 c2 1 := by
  conv_lhs => rw [solve_inner]
  rw [dif_pos hk]
  simp only [hsh, hls, hev]
  rw [dif_pos hlt]

/-- Claim C5: over any (deadline-bounded, modelled by an iteration count)
run of the RVNS controller, the recorded best cost is non-increasing; the
best solution is replaced only when a fully evaluated candidate is strictly
cheaper; and at such a replacement the inner loop restarts with `k = 1`
from the new best. -/
theorem C5_rvns_best_cost (h : Hospital) :
    (∀ (fuel : Nat) (rs : Nat → Nat → Nat → Nat → OpRand)
      (best : Solution) (bc : Nat) (out : Solution × Nat),
      solve_outer h rs best bc fuel = some out →
      out.2 ≤ bc ∧ (out.1 ≠ best → out.2 < bc)) ∧
    (∀ (rs : Nat → Nat → Nat → OpRand) (best : Solution) (bc k : Nat)
      (sp s2 : Solution) (c2 : Nat),
      k ≤ k_max h → shake h (rs 0 0) best k = some sp →
      local_search h (rs 0 1) sp = some s2 →
      evaluate_solution h s2 = some c2 → c2 < bc →
      solve_inner h rs best bc k
        = solve_inner h (fun t => rs (t + 1)) s2 c2 1) :=
  ⟨fun fuel rs best bc out hout =>
      solve_outer_mono h fuel rs best bc out hout,
    fun rs best bc k sp s2 c2 hk hsh hls hev hlt =>
      solve_inner_reset h rs best bc k sp s2 c2 hk hsh hls hev hlt⟩

/-- Witness for C5 at the degenerate instance: a zero-iteration run keeps
the recorded best cost, and a concrete improving candidate (cost 0 against
best cost 1) triggers the reset-to-`k = 1` unfolding. -/
theorem C5_rvns_best_cost_witness :
    ((solW, 7).2 ≤ 7 ∧ ((solW, 7).1 ≠ solW → (solW, 7).2 < 7)) ∧
    solve_inner hospW (fun _ _ _ => idRand) solW 1 1
      = solve_inner hospW (fun t => (fun _ _ _ => idRand) (t + 1))
          solW 0 1 := by
  constructor
  · exact (C5_rvns_best_cost hospW).1 0 (fun _ _ _ _ => idRand) solW 7
      (solW, 7) rfl
  · exact (C5_rvns_best_cost hospW).2 (fun _ _ _ => idRand) solW 1 1
      solW solW 0 (by decide) rfl ls_empty (by decide) (by decide)

/-! ## Claim C2: totality of the neighborhood operators

Supporting lemmas: membership facts and `isSome` conditions for the hard
checks the operators run. -/

theorem optTraverse_isSome (f : α → Option β) :
    ∀ l : List α, (∀ a ∈ l, (f a).isSome) →
      (optTraverse f l).isSome := by
  intro l
  induction l with
  | nil => intro; simp [optTraverse]
  | cons a l ih =>
    intro hall
    simp only [optTraverse]
    obtain ⟨b, hb⟩ := Option.isSome_iff_exists.mp
      (hall a (List.mem_cons_self a l))
    rw [hb]
    obtain ⟨bs, hbs⟩ := Option.isSome_iff_exists.mp
      (ih fun x hx => hall x (List.mem_cons_of_mem a hx))
    rw [hbs]
    rfl

theorem optTraverse_mem (f : α → Option β) :
    ∀ (l : List α) (bs : List β), optTraverse f l = some bs →
      ∀ b ∈ bs, ∃ a ∈ l, f a = some b := by
  intro l
  induction l with
  | nil =>
    intro bs hbs b hb
    simp only [optTraverse] at hbs
    obtain rfl := Option.some.inj hbs
    cases hb
  | cons a l ih =>
    intro bs hbs b hb
    simp only [optTraverse] at hbs
    cases hfa : f a with
    | none => rw [hfa] at hbs; cases hbs
    | some b0 =>
      rw [hfa] at hbs
      cases htl : optTraverse f l with
      | none => rw [htl] at hbs; cases hbs
      | some bs0 =>
        rw [htl] at hbs
        obtain rfl := Option.some.inj hbs
        rcases List.mem_cons.mp hb with rfl | hmem
        · exact ⟨a, List.mem_cons_self a l, hfa⟩
        · obtain ⟨x, hx, hfx⟩ := ih bs0 htl b hmem
          exact ⟨x, List.mem_cons_of_mem a hx, hfx⟩

theorem pyDictLookup_isSome [DecidableEq κ] (key : α → κ) :
    ∀ (l : List α) (k : κ), k ∈ l.map key →
      (pyDictLookup key l k).isSome := by
  intro l
  induction l with
  | nil => intro k hk; simp at hk
  | cons x l ih =>
    intro k hk
    simp only [pyDictLookup]
    cases hlk : pyDictLookup key l k with
    | some y => rfl
    | none =>
      simp only [List.map_cons, List.mem_cons] at hk
      rcases hk with rfl | hk
      · simp
      · have := ih k hk
        rw [hlk] at this
        simp at this

theorem listPick_mem (l : List α) (n : Nat) (hne : l ≠ []) :
    listPick l n hne ∈ l :=
  List.get_mem l _ _

theorem listModify_mem (f : α → α) :
    ∀ (l : List α) (i : Nat) (x : α), x ∈ listModify l i f →
      x ∈ l ∨ ∃ y ∈ l, x = f y := by
  intro l
  induction l with
  | nil => intro i x hx; simp [listModify] at hx
  | cons a l ih =>
    intro i x hx
    cases i with
    | zero =>
      simp only [listModify] at hx
      rcases List.mem_cons.mp hx with rfl | hmem
      · exact Or.inr ⟨a, List.mem_cons_self a l, rfl⟩
      · exact Or.inl (List.mem_cons_of_mem a hmem)
    | succ n =>
      simp only [listModify] at hx
      rcases List.mem_cons.mp hx with rfl | hmem
      · exact Or.inl (List.mem_cons_self x l)
      · rcases ih n x hmem with h1 | ⟨y, hy, hxy⟩
        · exact Or.inl (List.mem_cons_of_mem a h1)
        · exact Or.inr ⟨y, List.mem_cons_of_mem a hy, hxy⟩

theorem get_patient_inl (h : Hospital) (pid : String) (p : Patient)
    (hp : patient_dict h pid = some p) :
    get_patient_by_id h pid = some (Sum.inl p) := by
  unfold get_patient_by_id
  rw [hp]

/-- Every room id of an occupancy triple is the room of some solution
entry or of some occupant with a truthy room id. -/
theorem trips_room_spec (h : Hospital) (sol : Solution) :
    ∀ t ∈ get_all_patients_in_rooms h sol,
      (∃ ps ∈ sol.patients, t.2.1 = ps.room) ∨
      (∃ o ∈ h.occupants, o.room_id ≠ "" ∧ t.2.1 = o.room_id) := by
  intro t ht
  unfold get_all_patients_in_rooms at ht
  rcases List.mem_append.mp ht with hl | hr
  · rcases List.mem_flatMap.mp hl with ⟨ps, hps, hmem⟩
    cases hgp : get_patient_by_id h ps.id with
    | none => rw [hgp] at hmem; simp at hmem
    | some pr =>
      rw [hgp] at hmem
      rcases List.mem_filterMap.mp hmem with ⟨off, _, hoff⟩
      by_cases hd : ps.admission_day + off < h.days
      · rw [if_pos hd] at hoff
        obtain rfl := Option.some.inj hoff
        exact Or.inl ⟨ps, hps, rfl⟩
      · rw [if_neg hd] at hoff
        cases hoff
  · rcases List.mem_flatMap.mp hr with ⟨o, ho, hmem⟩
    by_cases hro : o.room_id = ""
    · rw [if_pos hro] at hmem
      cases hmem
    · rw [if_neg hro] at hmem
      rcases List.mem_filterMap.mp hmem with ⟨off, _, hoff⟩
      by_cases hd : off < h.days
      · rw [if_pos hd] at hoff
        obtain rfl := Option.some.inj hoff
        exact Or.inr ⟨o, ho, hro, rfl⟩
      · rw [if_neg hd] at hoff
        cases hoff

theorem h7_isSome (h : Hospital) (sol : Solution)
    (hrooms : ∀ t ∈ get_all_patients_in_rooms h sol,
      room_dict h t.2.1 ≠ none) :
    (h7_room_capacity sol h).isSome := by
  simp only [h7_room_capacity, Option.isSome_map']
  apply optTraverse_isSome
  intro k hk
  rw [List.mem_dedup] at hk
  rcases List.mem_map.mp hk with ⟨t, ht, rfl⟩
  cases hrd : room_dict h t.2.1 with
  | none => exact absurd hrd (hrooms t ht)
  | some rm => simp [hrd]

theorem h3_isSome (h : Hospital) (sol : Solution)
    (hpat : ∀ ps ∈ sol.patients, (patient_dict h ps.id).isSome)
    (hday : ∀ ps ∈ sol.patients, ps.admission_day < h.days)
    (hsg : ∀ sg ∈ h.surgeons, sg.max_surgery_time.length = h.days) :
    (h3_surgeon_overtime sol h).isSome := by
  have htrav : (optTraverse (h3_contrib h) sol.patients).isSome := by
    apply optTraverse_isSome
    intro ps hps
    obtain ⟨p, hp⟩ := Option.isSome_iff_exists.mp (hpat ps hps)
    simp [h3_contrib, get_patient_inl h ps.id p hp]
  obtain ⟨l, hl⟩ := Option.isSome_iff_exists.mp htrav
  simp only [h3_surgeon_overtime, hl, Option.isSome_map']
  apply optTraverse_isSome
  intro k hk
  rw [List.mem_dedup] at hk
  rcases List.mem_map.mp hk with ⟨e, he, rfl⟩
  rcases List.mem_filterMap.mp he with ⟨oe, hoe, hid⟩
  obtain ⟨a, ha, hfa⟩ := optTraverse_mem _ _ _ hl oe hoe
  simp only [id] at hid
  subst hid
  have hdaye : e.1.1 < h.days := by
    obtain ⟨p, hp⟩ := Option.isSome_iff_exists.mp (hpat a ha)
    rw [h3_contrib, get_patient_inl h a.id p hp] at hfa
    obtain rfl := Option.some.inj (Option.some.inj hfa)
    exact hday a ha
  cases hsd : surgeon_dict h e.1.2 with
  | none => simp [hsd]
  | some sg =>
    have hmem := (pyDictLookup_eq_some Surgeon.id h.surgeons e.1.2 sg
      hsd).2
    have hlen := hsg sg hmem
    have : (sg.max_surgery_time.get? e.1.1).isSome := by
      rw [List.get?_eq_getElem?,
        List.getElem?_eq_getElem (hlen.symm ▸ hdaye)]
      rfl
    obtain ⟨m, hm⟩ := Option.isSome_iff_exists.mp this
    rw [List.get?_eq_getElem?] at hm
    simp [hsd, hm]

theorem h4_isSome (h : Hospital) (sol : Solution)
    (hpat : ∀ ps ∈ sol.patients, (patient_dict h ps.id).isSome)
    (hday : ∀ ps ∈ sol.patients, ps.admission_day < h.days)
    (hot : ∀ ot ∈ h.operating_theaters, ot.availability.length = h.days) :
    (h4_ot_overtime sol h).isSome := by
  have htrav : (optTraverse (h4_contrib h) sol.patients).isSome := by
    apply optTraverse_isSome
    intro ps hps
    obtain ⟨p, hp⟩ := Option.isSome_iff_exists.mp (hpat ps hps)
    simp [h4_contrib, get_patient_inl h ps.id p hp]
  obtain ⟨l, hl⟩ := Option.isSome_iff_exists.mp htrav
  simp only [h4_ot_overtime, hl, Option.isSome_map']
  apply optTraverse_isSome
  intro k hk
  rw [List.mem_dedup] at hk
  rcases List.mem_map.mp hk with ⟨e, he, rfl⟩
  rcases List.mem_filterMap.mp he with ⟨oe, hoe, hid⟩
  obtain ⟨a, ha, hfa⟩ := optTraverse_mem _ _ _ hl oe hoe
  simp only [id] at hid
  subst hid
  have hdaye : e.1.1 < h.days := by
    obtain ⟨p, hp⟩ := Option.isSome_iff_exists.mp (hpat a ha)
    rw [h4_contrib, get_patient_inl h a.id p hp] at hfa
    obtain rfl := Option.some.inj (Option.some.inj hfa)
    exact hday a ha
  cases hsd : operating_theaters_dict h e.1.2 with
  | none => simp [hsd]
  | some ot2 =>
    have hmem := (pyDictLookup_eq_some Theater.id h.operating_theaters
      e.1.2 ot2 hsd).2
    have hlen := hot ot2 hmem
    have : (ot2.availability.get? e.1.1).isSome := by
      rw [List.get?_eq_getElem?,
        List.getElem?_eq_getElem (hlen.symm ▸ hdaye)]
      rfl
    obtain ⟨m, hm⟩ := Option.isSome_iff_exists.mp this
    rw [List.get?_eq_getElem?] at hm
    simp [hsd, hm]

theorem h6_isSome (h : Hospital) (sol : Solution)
    (hpat : ∀ ps ∈ sol.patients, (patient_dict h ps.id).isSome)
    (hdue : ∀ p ∈ h.patients, p.mandatory = true →
      p.surgery_due_day ≠ none) :
    (h6_admission_day sol h).isSome := by
  simp only [h6_admission_day, Option.isSome_map']
  apply optTraverse_isSome
  intro ps hps
  obtain ⟨p, hp⟩ := Option.isSome_iff_exists.mp (hpat ps hps)
  have hpm := (pyDictLookup_eq_some Patient.id h.patients ps.id p hp).2
  simp only [h6_entry, get_patient_inl h ps.id p hp]
  by_cases hm : p.mandatory
  · rw [if_pos hm]
    cases hdd : p.surgery_due_day with
    | none => exact absurd hdd (hdue p hpm hm)
    | some dd => rfl
  · rw [if_neg hm]
    rfl

theorem checks_room_isSome (h : Hospital) (s : Solution)
    (h7s : (h7_room_capacity s h).isSome) : (checks_room h s).isSome := by
  unfold checks_room
  split_ifs
  · rfl
  · rfl
  · obtain ⟨v, hv⟩ := Option.isSome_iff_exists.mp h7s
    simp [hv]

theorem checks_day_isSome (h : Hospital) (s : Solution)
    (h6s : (h6_admission_day s h).isSome)
    (h3s : (h3_surgeon_overtime s h).isSome)
    (h4s : (h4_ot_overtime s h).isSome) : (checks_day h s).isSome := by
  unfold checks_day
  obtain ⟨v6, hv6⟩ := Option.isSome_iff_exists.mp h6s
  obtain ⟨v3, hv3⟩ := Option.isSome_iff_exists.mp h3s
  obtain ⟨v4, hv4⟩ := Option.isSome_iff_exists.mp h4s
  simp only [hv6, hv3, hv4]
  split_ifs <;> rfl

theorem checks_all_isSome (h : Hospital) (s : Solution)
    (h7s : (h7_room_capacity s h).isSome)
    (h3s : (h3_surgeon_overtime s h).isSome)
    (h4s : (h4_ot_overtime s h).isSome)
    (h6s : (h6_admission_day s h).isSome) : (checks_all h s).isSome := by
  unfold checks_all
  obtain ⟨v7, hv7⟩ := Option.isSome_iff_exists.mp h7s
  obtain ⟨v3, hv3⟩ := Option.isSome_iff_exists.mp h3s
  obtain ⟨v4, hv4⟩ := Option.isSome_iff_exists.mp h4s
  obtain ⟨v6, hv6⟩ := Option.isSome_iff_exists.mp h6s
  simp only [hv7, hv3, hv4, hv6]
  split_ifs <;> rfl

theorem checks_swap_isSome (h : Hospital) (s : Solution)
    (h7s : (h7_room_capacity s h).isSome) : (checks_swap h s).isSome := by
  unfold checks_swap
  obtain ⟨v, hv⟩ := Option.isSome_iff_exists.mp h7s
  simp only [hv]
  split_ifs <;> rfl

theorem checks_ot_isSome (h : Hospital) (s : Solution)
    (h3s : (h3_surgeon_overtime s h).isSome)
    (h4s : (h4_ot_overtime s h).isSome) : (checks_ot h s).isSome := by
  unfold checks_ot
  obtain ⟨v3, hv3⟩ := Option.isSome_iff_exists.mp h3s
  obtain ⟨v4, hv4⟩ := Option.isSome_iff_exists.mp h4s
  simp only [hv3, hv4]
  split_ifs <;> rfl

theorem cpr_try_isSome (h : Hospital) (sol : Solution) (i : Nat) :
    ∀ cands : List String,
      (∀ rm ∈ cands, (checks_room h (setRoomAt sol i rm)).isSome) →
      (cpr_try h sol i cands).isSome := by
  intro cands
  induction cands with
  | nil => intro; simp [cpr_try]
  | cons rm rest ih =>
    intro hall
    simp only [cpr_try]
    obtain ⟨b, hb⟩ := Option.isSome_iff_exists.mp
      (hall rm (List.mem_cons_self rm rest))
    rw [hb]
    cases b with
    | true => rfl
    | false => exact ih fun x hx => hall x (List.mem_cons_of_mem rm hx)

theorem cpr_try_cases (h : Hospital) (sol : Solution) (i : Nat) :
    ∀ (cands : List String) (out : Solution),
      cpr_try h sol i cands = some out →
      out = sol ∨ ∃ rm, out = setRoomAt sol i rm := by
  intro cands
  induction cands with
  | nil =>
    intro out hout
    simp only [cpr_try] at hout
    exact Or.inl (Option.some.inj hout).symm
  | cons rm rest ih =>
    intro out hout
    simp only [cpr_try] at hout
    cases hc : checks_room h (setRoomAt sol i rm) with
    | none => rw [hc] at hout; cases hout
    | some b =>
      rw [hc] at hout
      cases b with
      | true => exact Or.inr ⟨rm, (Option.some.inj hout).symm⟩
      | false => exact ih out hout

theorem cpd_try_isSome (h : Hospital) (sol : Solution) (i : Nat) :
    ∀ cands : List Nat,
      (∀ d ∈ cands, (checks_day h (setDayAt sol i d)).isSome) →
      (cpd_try h sol i cands).isSome := by
  intro cands
  induction cands with
  | nil => intro; simp [cpd_try]
  | cons d rest ih =>
    intro hall
    simp only [cpd_try]
    obtain ⟨b, hb⟩ := Option.isSome_iff_exists.mp
      (hall d (List.mem_cons_self d rest))
    rw [hb]
    cases b with
    | true => rfl
    | false => exact ih fun x hx => hall x (List.mem_cons_of_mem d hx)

theorem cpd_try_cases (h : Hospital) (sol : Solution) (i : Nat) :
    ∀ (cands : List Nat) (out : Solution),
      cpd_try h sol i cands = some out →
      out = sol ∨ ∃ d, out = setDayAt sol i d := by
  intro cands
  induction cands with
  | nil =>
    intro out hout
    simp only [cpd_try] at hout
    exact Or.inl (Option.some.inj hout).symm
  | cons d rest ih =>
    intro out hout
    simp only [cpd_try] at hout
    cases hc : checks_day h (setDayAt sol i d) with
    | none => rw [hc] at hout; cases hout
    | some b =>
      rw [hc] at hout
      cases b with
      | true => exact Or.inr ⟨d, (Option.some.inj hout).symm⟩
      | false => exact ih out hout

theorem cpo_try_isSome (h : Hospital) (sol : Solution) (i : Nat) :
    ∀ cands : List String,
      (∀ ot ∈ cands, (checks_ot h (setOtAt sol i ot)).isSome) →
      (cpo_try h sol i cands).isSome := by
  intro cands
  induction cands with
  | nil => intro; simp [cpo_try]
  | cons ot rest ih =>
    intro hall
    simp only [cpo_try]
    obtain ⟨b, hb⟩ := Option.isSome_iff_exists.mp
      (hall ot (List.mem_cons_self ot rest))
    rw [hb]
    cases b with
    | true => rfl
    | false => exact ih fun x hx => hall x (List.mem_cons_of_mem ot hx)

theorem cpo_try_cases (h : Hospital) (sol : Solution) (i : Nat) :
    ∀ (cands : List String) (out : Solution),
      cpo_try h sol i cands = some out →
      out = sol ∨ ∃ ot, out = setOtAt sol i ot := by
  intro cands
  induction cands with
  | nil =>
    intro out hout
    simp only [cpo_try] at hout
    exact Or.inl (Option.some.inj hout).symm
  | cons ot rest ih =>
    intro out hout
    simp only [cpo_try] at hout
    cases hc : checks_ot h (setOtAt sol i ot) with
    | none => rw [hc] at hout; cases hout
    | some b =>
      rw [hc] at hout
      cases b with
      | true => exact Or.inr ⟨ot, (Option.some.inj hout).symm⟩
      | false => exact ih out hout

theorem rsu_try_isSome (h : Hospital) (sol : Solution) (pid : String) :
    ∀ cands : List (Nat × String × String),
      (∀ c ∈ cands, (checks_all h
        { sol with patients := sol.patients ++ [⟨pid, c.1, c.2.1, c.2.2⟩]
        }).isSome) →
      (rsu_try h sol pid cands).isSome := by
  intro cands
  induction cands with
  | nil => intro; simp [rsu_try]
  | cons c rest ih =>
    intro hall
    obtain ⟨d, rm, ot⟩ := c
    simp only [rsu_try]
    obtain ⟨b, hb⟩ := Option.isSome_iff_exists.mp
      (hall (d, rm, ot) (List.mem_cons_self _ rest))
    rw [hb]
    cases b with
    | true => rfl
    | false => exact ih fun x hx => hall x (List.mem_cons_of_mem _ hx)

theorem rsu_try_cases (h : Hospital) (sol : Solution) (pid : String) :
    ∀ (cands : List (Nat × String × String)) (out : Solution),
      rsu_try h sol pid cands = some out →
      out = sol ∨ ∃ e, out = { sol with patients := sol.patients ++ [e] } := by
  intro cands
  induction cands with
  | nil =>
    intro out hout
    simp only [rsu_try] at hout
    exact Or.inl (Option.some.inj hout).symm
  | cons c rest ih =>
    intro out hout
    obtain ⟨d, rm, ot⟩ := c
    simp only [rsu_try] at hout
    cases hc : checks_all h
        { sol with patients := sol.patients ++ [⟨pid, d, rm, ot⟩] } with
    | none => rw [hc] at hout; cases hout
    | some b =>
      rw [hc] at hout
      cases b with
      | true => exact Or.inr ⟨⟨pid, d, rm, ot⟩, (Option.some.inj hout).symm⟩
      | false => exact ih out hout

/-- Instance-side well-formedness used by the operator-totality results:
per-day arrays span the horizon, and mandatory patients carry a due day
(all guaranteed by the instance format of the spec). -/
def instOK (h : Hospital) : Prop :=
  (∀ sg ∈ h.surgeons, sg.max_surgery_time.length = h.days) ∧
  (∀ ot ∈ h.operating_theaters, ot.availability.length = h.days) ∧
  (∀ p ∈ h.patients, p.mandatory = true → p.surgery_due_day ≠ none)

/-- Solution-side well-formedness: placements reference known patients and
rooms with admission days inside the horizon, occupants' rooms are known,
and nurse entries carry at least one duty record. -/
def solOK (h : Hospital) (sol : Solution) : Prop :=
  (∀ ps ∈ sol.patients, (patient_dict h ps.id).isSome) ∧
  (∀ ps ∈ sol.patients, ps.admission_day < h.days) ∧
  (∀ ps ∈ sol.patients, room_dict h ps.room ≠ none) ∧
  (∀ o ∈ h.occupants, o.room_id ≠ "" → room_dict h o.room_id ≠ none) ∧
  (∀ n ∈ sol.nurses, n.assignments ≠ [])

/-- Every placed patient's admission day lies inside
`[release, due]` (the list `_neighborhood_change_patient_day` removes it
from), with the due day inside the horizon. -/
def windowOK (h : Hospital) (sol : Solution) : Prop :=
  ∀ ps ∈ sol.patients, ∀ p, patient_dict h ps.id = some p →
    p.surgery_release_day ≤ ps.admission_day ∧
    (ps.admission_day : Int) ≤ dueOf h p ∧ dueOf h p < (h.days : Int)

/-- The oracle's shuffles really permute (what `random.shuffle` does). -/
def shuffleOK (r : OpRand) : Prop :=
  (∀ l : List String, (r.shufS l).Perm l) ∧
  (∀ l : List String, (r.shufS2 l).Perm l) ∧
  (∀ l : List Nat, (r.shufN l).Perm l)

theorem idRand_shuffleOK : shuffleOK idRand :=
  ⟨fun l => List.Perm.refl l, fun l => List.Perm.refl l,
    fun l => List.Perm.refl l⟩

theorem firstDedupAux_subset [DecidableEq α] :
    ∀ (l : List α) (seen : List α) (a : α),
      a ∈ firstDedupAux seen l → a ∈ l := by
  intro l
  induction l with
  | nil => intro seen a ha; simp [firstDedupAux] at ha
  | cons x l ih =>
    intro seen a ha
    simp only [firstDedupAux] at ha
    by_cases hx : x ∈ seen
    · rw [if_pos hx] at ha
      exact List.mem_cons_of_mem x (ih seen a ha)
    · rw [if_neg hx] at ha
      rcases List.mem_cons.mp ha with rfl | ha
      · exact List.mem_cons_self a l
      · exact List.mem_cons_of_mem x (ih (seen ++ [x]) a ha)

theorem firstDedup_subset [DecidableEq α] (l : List α) (a : α)
    (ha : a ∈ firstDedup l) : a ∈ l :=
  firstDedupAux_subset l [] a ha

theorem room_keys_lookup (h : Hospital) (rm : String)
    (hrm : rm ∈ room_keys h) : room_dict h rm ≠ none := by
  have := pyDictLookup_isSome Room.id h.rooms rm
    (firstDedup_subset _ rm hrm)
  exact Option.isSome_iff_ne_none.mp this

theorem trips_rooms_ok (h : Hospital) (sol : Solution)
    (hp : ∀ ps ∈ sol.patients, room_dict h ps.room ≠ none)
    (ho : ∀ o ∈ h.occupants, o.room_id ≠ "" → room_dict h o.room_id ≠ none) :
    ∀ t ∈ get_all_patients_in_rooms h sol, room_dict h t.2.1 ≠ none := by
  intro t ht
  rcases trips_room_spec h sol t ht with ⟨ps, hps, heq⟩ | ⟨o, ho2, hro, heq⟩
  · rw [heq]; exact hp ps hps
  · rw [heq]; exact ho o ho2 hro

/-- Claim C2 totality result for `_neighborhood_change_patient_room`. -/
theorem cpr_total (h : Hospital) (r : OpRand) (sol : Solution)
    (hso : solOK h sol) (hsh : shuffleOK r) :
    ∃ s2, neighborhood_change_patient_room h r sol = some s2 ∧
      (s2 = sol ∨ ∃ i rm, s2 = setRoomAt sol i rm) := by
  unfold neighborhood_change_patient_room
  by_cases hne : sol.patients = []
  · rw [dif_pos hne]
    exact ⟨sol, rfl, Or.inl rfl⟩
  · rw [dif_neg hne]
    have hmem := listPick_mem sol.patients r.c1 hne
    obtain ⟨p0, hp0⟩ := Option.isSome_iff_exists.mp (hso.1 _ hmem)
    simp only [get_patient_inl h _ p0 hp0]
    by_cases hav : ((room_keys h).filter (fun rid =>
        decide (rid ∉ p0.incompatible_room_ids) &&
        decide (rid ≠ (listPick sol.patients r.c1 hne).room))) = []
    · rw [if_pos hav]
      exact ⟨sol, rfl, Or.inl rfl⟩
    · rw [if_neg hav]
      have hsome : (cpr_try h sol (r.c1 % sol.patients.length)
          (r.shufS ((room_keys h).filter (fun rid =>
            decide (rid ∉ p0.incompatible_room_ids) &&
            decide (rid ≠ (listPick sol.patients r.c1 hne).room))))).isSome
          := by
        apply cpr_try_isSome
        intro rm hrm
        have hrm2 := ((hsh.1 _).mem_iff).mp hrm
        have hrk : rm ∈ room_keys h := List.mem_of_mem_filter hrm2
        apply checks_room_isSome
        apply h7_isSome
        apply trips_rooms_ok
        · intro ps2 hps2
          rcases listModify_mem _ sol.patients _ ps2 hps2 with hin |
            ⟨y, _, rfl⟩
          · exact hso.2.2.1 ps2 hin
          · exact room_keys_lookup h rm hrk
        · exact hso.2.2.2.1
      obtain ⟨out, hout⟩ := Option.isSome_iff_exists.mp hsome
      refine ⟨out, hout, ?_⟩
      rcases cpr_try_cases h sol _ _ out hout with rfl | ⟨rm, rfl⟩
      · exact Or.inl rfl
      · exact Or.inr ⟨_, rm, rfl⟩

/-- Claim C2 totality result for `_neighborhood_change_patient_day`: with
every placement's current admission day inside its `[release, due]` window
(and the window inside the horizon), the `remove` succeeds and the
operator returns normally. -/
theorem cpd_total (h : Hospital) (r : OpRand) (sol : Solution)
    (hio : instOK h) (hso : solOK h sol) (hwin : windowOK h sol)
    (hsh : shuffleOK r) :
    ∃ s2, neighborhood_change_patient_day h r sol = some s2 ∧
      (s2 = sol ∨ ∃ i d, s2 = setDayAt sol i d) := by
  unfold neighborhood_change_patient_day
  by_cases hne : sol.patients = []
  · rw [dif_pos hne]
    exact ⟨sol, rfl, Or.inl rfl⟩
  · rw [dif_neg hne]
    have hmem := listPick_mem sol.patients r.c1 hne
    obtain ⟨p0, hp0⟩ := Option.isSome_iff_exists.mp (hso.1 _ hmem)
    simp only [get_patient_inl h _ p0 hp0]
    obtain ⟨hrel, hle, hlt⟩ := hwin _ hmem p0 hp0
    have hcond : (p0.surgery_release_day : Int) ≤ dueOf h p0 :=
      le_trans (by exact_mod_cast hrel) hle
    rw [if_pos hcond]
    have hmem2 : (listPick sol.patients r.c1 hne).admission_day ∈
        List.range' p0.surgery_release_day
          ((dueOf h p0).toNat + 1 - p0.surgery_release_day) := by
      rw [List.mem_range'_1]
      omega
    rw [if_pos hmem2]
    have hsome : (cpd_try h sol (r.c1 % sol.patients.length)
        (r.shufN ((List.range' p0.surgery_release_day
          ((dueOf h p0).toNat + 1 - p0.surgery_release_day)).erase
            (listPick sol.patients r.c1 hne).admission_day))).isSome := by
      apply cpd_try_isSome
      intro d hd
      have hd2 := ((hsh.2.2 _).mem_iff).mp hd
      have hd3 := List.mem_of_mem_erase hd2
      rw [List.mem_range'_1] at hd3
      have hdlt : d < h.days := by omega
      have hpat2 : ∀ ps2 ∈ (setDayAt sol (r.c1 % sol.patients.length)
          d).patients, (patient_dict h ps2.id).isSome := by
        intro ps2 hps2
        rcases listModify_mem _ sol.patients _ ps2 hps2 with hin |
          ⟨y, hy, rfl⟩
        · exact hso.1 ps2 hin
        · exact hso.1 y hy
      have hday2 : ∀ ps2 ∈ (setDayAt sol (r.c1 % sol.patients.length)
          d).patients, ps2.admission_day < h.days := by
        intro ps2 hps2
        rcases listModify_mem _ sol.patients _ ps2 hps2 with hin |
          ⟨y, _, rfl⟩
        · exact hso.2.1 ps2 hin
        · exact hdlt
      exact checks_day_isSome h _
        (h6_isSome h _ hpat2 hio.2.2)
        (h3_isSome h _ hpat2 hday2 hio.1)
        (h4_isSome h _ hpat2 hday2 hio.2.1)
    obtain ⟨out, hout⟩ := Option.isSome_iff_exists.mp hsome
    refine ⟨out, hout, ?_⟩
    rcases cpd_try_cases h sol _ _ out hout with rfl | ⟨d, rfl⟩
    · exact Or.inl rfl
    · exact Or.inr ⟨_, d, rfl⟩

theorem mem_triple_product (ds : List Nat) (rms ots : List String)
    (c : Nat × String × String)
    (hc : c ∈ ds.flatMap (fun d => rms.flatMap (fun rm =>
      ots.map (fun ot => (d, rm, ot))))) :
    c.1 ∈ ds ∧ c.2.1 ∈ rms ∧ c.2.2 ∈ ots := by
  rcases List.mem_flatMap.mp hc with ⟨d, hd, hc2⟩
  rcases List.mem_flatMap.mp hc2 with ⟨rm, hrm, hc3⟩
  rcases List.mem_map.mp hc3 with ⟨ot, hot, rfl⟩
  exact ⟨hd, hrm, hot⟩

/-- Claim C2 totality result for `_neighborhood_reschedule_unscheduled`. -/
theorem rsu_total (h : Hospital) (r : OpRand) (sol : Solution)
    (hio : instOK h) (hso : solOK h sol) (hsh : shuffleOK r) :
    ∃ s2, neighborhood_reschedule_unscheduled h r sol = some s2 ∧
      (s2 = sol ∨
        ∃ e, s2 = { sol with patients := sol.patients ++ [e] }) := by
  unfold neighborhood_reschedule_unscheduled
  by_cases hne : ((pyDictValues Patient.id h.patients).filter (fun p =>
      !p.mandatory && decide (p.id ∉ sol.patients.map PSol.id))) = []
  · rw [dif_pos hne]
    exact ⟨sol, rfl, Or.inl rfl⟩
  · rw [dif_neg hne]
    have hmem := listPick_mem _ r.c1 hne
    have hpv := List.mem_of_mem_filter hmem
    have hlk := mem_pyDictValues Patient.id h.patients _ hpv
    have hsome : (rsu_try h sol (listPick _ r.c1 hne).id
        ((r.shufN (List.range'
            (listPick _ r.c1 hne).surgery_release_day
            ((h.days - (listPick _ r.c1 hne).length_of_stay)
              - (listPick _ r.c1 hne).surgery_release_day))).flatMap
          (fun d => (r.shufS (room_keys h)).flatMap (fun rm =>
            (r.shufS2 (ot_keys h)).map (fun ot =>
              (d, rm, ot)))))).isSome := by
      apply rsu_try_isSome
      intro c hc
      obtain ⟨hd, hrm, _⟩ := mem_triple_product _ _ _ c hc
      have hd2 := ((hsh.2.2 _).mem_iff).mp hd
      rw [List.mem_range'_1] at hd2
      have hdlt : c.1 < h.days := by omega
      have hrm2 := ((hsh.1 _).mem_iff).mp hrm
      have hpatA : ∀ ps2 ∈ sol.patients ++
          [(⟨(listPick _ r.c1 hne).id, c.1, c.2.1, c.2.2⟩ : PSol)],
          (patient_dict h ps2.id).isSome := by
        intro ps2 hps2
        rcases List.mem_append.mp hps2 with hin | hnew
        · exact hso.1 ps2 hin
        · obtain rfl := List.mem_singleton.mp hnew
          exact Option.isSome_iff_exists.mpr ⟨_, hlk⟩
      have hdayA : ∀ ps2 ∈ sol.patients ++
          [(⟨(listPick _ r.c1 hne).id, c.1, c.2.1, c.2.2⟩ : PSol)],
          ps2.admission_day < h.days := by
        intro ps2 hps2
        rcases List.mem_append.mp hps2 with hin | hnew
        · exact hso.2.1 ps2 hin
        · obtain rfl := List.mem_singleton.mp hnew
          exact hdlt
      apply checks_all_isSome
      · apply h7_isSome
        apply trips_rooms_ok
        · intro ps2 hps2
          rcases List.mem_append.mp hps2 with hin | hnew
          · exact hso.2.2.1 ps2 hin
          · obtain rfl := List.mem_singleton.mp hnew
            exact room_keys_lookup h c.2.1 hrm2
        · exact hso.2.2.2.1
      · exact h3_isSome h _ hpatA hdayA hio.1
      · exact h4_isSome h _ hpatA hdayA hio.2.1
      · exact h6_isSome h _ hpatA hio.2.2
    obtain ⟨out, hout⟩ := Option.isSome_iff_exists.mp hsome
    refine ⟨out, hout, ?_⟩
    rcases rsu_try_cases h sol _ _ out hout with rfl | ⟨e, rfl⟩
    · exact Or.inl rfl
    · exact Or.inr ⟨e, rfl⟩

theorem cna_candidates_spec (sol : Solution) (nA : NSol) (aA : NAssign)
    (jk : Nat × Nat) (hjk : jk ∈ cna_candidates sol nA aA) :
    ∃ nB, sol.nurses.get? jk.1 = some nB ∧
      ∃ aB, nB.assignments.get? jk.2 = some aB := by
  unfold cna_candidates at hjk
  rcases List.mem_flatMap.mp hjk with ⟨jB, _, hmem⟩
  cases hgB : sol.nurses.get? jB with
  | none => simp only [hgB] at hmem; simp at hmem
  | some nB =>
    simp only [hgB] at hmem
    by_cases hid : nB.id = nA.id
    · rw [if_pos hid] at hmem
      simp at hmem
    · rw [if_neg hid] at hmem
      rcases List.mem_filterMap.mp hmem with ⟨kB, _, hkB⟩
      cases hgB2 : nB.assignments.get? kB with
      | none => simp only [hgB2] at hkB; cases hkB
      | some aB =>
        simp only [hgB2] at hkB
        by_cases hcond : aB.day = aA.day ∧ aB.shift = aA.shift ∧
            ∀ x ∈ aB.rooms, x ∉ aA.rooms
        · rw [if_pos hcond] at hkB
          obtain rfl := Option.some.inj hkB
          exact ⟨nB, hgB, aB, hgB2⟩
        · rw [if_neg hcond] at hkB
          cases hkB

/-- Claim C2 totality result for `_neighborhood_change_nurse_assignment`:
with every nurse entry carrying at least one duty record (and rooms
resolvable for H7), the operator returns normally — returning either the
(value of the) input or a room-set swap. -/
theorem cna_total (h : Hospital) (r : OpRand) (sol : Solution)
    (hso : solOK h sol) :
    ∃ s2, neighborhood_change_nurse_assignment h r sol = some s2 ∧
      (s2 = sol ∨ ∃ j1 k1 rooms1 j2 k2 rooms2,
        s2 = setRoomsAt (setRoomsAt sol j1 k1 rooms1) j2 k2 rooms2) := by
  unfold neighborhood_change_nurse_assignment
  by_cases hlen : sol.nurses.length < 2
  · rw [if_pos hlen]
    exact ⟨sol, rfl, Or.inl rfl⟩
  · rw [if_neg hlen]
    have h0mem : 0 ∈ (List.range sol.nurses.length).filter (fun j =>
        match sol.nurses.get? j with
        | none => false
        | some n => !n.assignments.isEmpty) := by
      apply List.mem_filter.mpr
      refine ⟨List.mem_range.mpr (by omega), ?_⟩
      cases hn : sol.nurses.get? 0 with
      | none =>
        rw [List.get?_eq_none] at hn
        omega
      | some n =>
        have hmem0 : n ∈ sol.nurses := List.get?_mem hn
        have := hso.2.2.2.2 n hmem0
        simp [List.isEmpty_iff, this]
    have hwne : (List.range sol.nurses.length).filter (fun j =>
        match sol.nurses.get? j with
        | none => false
        | some n => !n.assignments.isEmpty) ≠ [] :=
      List.ne_nil_of_mem h0mem
    rw [dif_neg hwne]
    have hjA := listPick_mem _ r.c1 hwne
    have hjr := List.mem_range.mp (List.mem_filter.mp hjA).1
    cases hgA : sol.nurses.get? (listPick _ r.c1 hwne) with
    | none =>
      rw [List.get?_eq_none] at hgA
      omega
    | some nA =>
      simp only [hgA]
      have hane : nA.assignments ≠ [] := by
        have hpred := (List.mem_filter.mp hjA).2
        rw [hgA] at hpred
        simpa [List.isEmpty_iff] using hpred
      rw [dif_neg hane]
      by_cases hc : cna_candidates sol nA
          (listPick nA.assignments r.c2 hane) = []
      · rw [dif_pos hc]
        exact ⟨sol, rfl, Or.inl rfl⟩
      · rw [dif_neg hc]
        have hjk := listPick_mem _ r.c3 hc
        obtain ⟨nB, hgB, aB, hgB2⟩ :=
          cna_candidates_spec sol nA _ _ hjk
        simp only [hgB, hgB2]
        have h7ok : (h7_room_capacity sol h).isSome :=
          h7_isSome h sol (trips_rooms_ok h sol hso.2.2.1 hso.2.2.2.1)
        have hcs : (checks_swap h (setRoomsAt (setRoomsAt sol
            (listPick _ r.c1 hwne) (r.c2 % nA.assignments.length) aB.rooms)
            (listPick (cna_candidates sol nA
              (listPick nA.assignments r.c2 hane)) r.c3 hc).1
            (listPick (cna_candidates sol nA
              (listPick nA.assignments r.c2 hane)) r.c3 hc).2
            (listPick nA.assignments r.c2 hane).rooms)).isSome :=
          checks_swap_isSome h _ h7ok
        obtain ⟨b, hb⟩ := Option.isSome_iff_exists.mp hcs
        rw [hb]
        cases b with
        | true =>
          exact ⟨_, rfl, Or.inr ⟨_, _, _, _, _, _, rfl⟩⟩
        | false => exact ⟨sol, rfl, Or.inl rfl⟩

/-- Claim C2 totality result for `_neighborhood_change_patient_ot`. -/
theorem cpo_total (h : Hospital) (r : OpRand) (sol : Solution)
    (hio : instOK h) (hso : solOK h sol) :
    ∃ s2, neighborhood_change_patient_ot h r sol = some s2 ∧
      (s2 = sol ∨ ∃ i ot, s2 = setOtAt sol i ot) := by
  unfold neighborhood_change_patient_ot
  by_cases hne : sol.patients = []
  · rw [dif_pos hne]
    exact ⟨sol, rfl, Or.inl rfl⟩
  · rw [dif_neg hne]
    by_cases hav : ((ot_keys h).filter (fun o =>
        decide (o ≠ (listPick sol.patients r.c1 hne).operating_theater)))
        = []
    · rw [if_pos hav]
      exact ⟨sol, rfl, Or.inl rfl⟩
    · rw [if_neg hav]
      have hsome : (cpo_try h sol (r.c1 % sol.patients.length)
          (r.shufS ((ot_keys h).filter (fun o =>
            decide (o ≠ (listPick sol.patients r.c1
              hne).operating_theater))))).isSome := by
        apply cpo_try_isSome
        intro ot hot
        have hpat2 : ∀ ps2 ∈ (setOtAt sol (r.c1 % sol.patients.length)
            ot).patients, (patient_dict h ps2.id).isSome := by
          intro ps2 hps2
          rcases listModify_mem _ sol.patients _ ps2 hps2 with hin |
            ⟨y, hy, rfl⟩
          · exact hso.1 ps2 hin
          · exact hso.1 y hy
        have hday2 : ∀ ps2 ∈ (setOtAt sol (r.c1 % sol.patients.length)
            ot).patients, ps2.admission_day < h.days := by
          intro ps2 hps2
          rcases listModify_mem _ sol.patients _ ps2 hps2 with hin |
            ⟨y, hy, rfl⟩
          · exact hso.2.1 ps2 hin
          · exact hso.2.1 y hy
        exact checks_ot_isSome h _
          (h3_isSome h _ hpat2 hday2 hio.1)
          (h4_isSome h _ hpat2 hday2 hio.2.1)
      obtain ⟨out, hout⟩ := Option.isSome_iff_exists.mp hsome
      refine ⟨out, hout, ?_⟩
      rcases cpo_try_cases h sol _ _ out hout with rfl | ⟨ot, rfl⟩
      · exact Or.inl rfl
      · exact Or.inr ⟨_, ot, rfl⟩

def patC2 : Patient :=
  ⟨"q1", true, "A", "adult", 1, 2, some 3, 10, "s1", [], [0, 0, 0],
    [0, 0, 0]⟩

def hospC2 : Hospital :=
  ⟨5, ["0"], ["early", "late", "night"], ["adult"], [], [patC2],
    [⟨"s1", [100, 100, 100, 100, 100]⟩],
    [⟨"t1", [100, 100, 100, 100, 100]⟩], [⟨"r1", 2⟩], [], wWeights⟩

/-- Patient q1, whose window is [2, 3], is placed at admission day 0. -/
def solC2 : Solution := ⟨[⟨"q1", 0, "r1", "t1"⟩], []⟩

/-- Counterexample to claim C2: the change-patient-day operator does NOT
return normally when the chosen patient's current admission day (0) lies
outside the `[surgery_release_day, surgery_due_day]` interval ([2, 3])
used to build the candidate day list — `days_to_try.remove(original_day)`
raises `ValueError`, modelled as `none`. -/
theorem C2_change_day_counterexample :
    patient_dict hospC2 "q1" = some patC2 ∧
    patC2.surgery_release_day = 2 ∧
    patC2.surgery_due_day = some 3 ∧
    neighborhood_change_patient_day hospC2 idRand solC2 = none := by
  refine ⟨by decide, by decide, by decide, by decide⟩

/-- Claim C2 (amended): on instances whose per-day arrays span the horizon
and whose mandatory patients carry due days, and on solutions whose
placements reference known patients and rooms with in-horizon admission
days and whose nurse entries are nonempty, every neighborhood operator
returns normally for every randomization, and what it returns is either a
value equal to its input (the unmodified-clone fallback) or the input with
exactly one category of modification applied; the change-patient-day
operator additionally requires every placement's current admission day to
lie inside its `[release, due]` window — outside it the operator raises
`ValueError` (see the counterexample). -/
theorem C2_operators_total (h : Hospital) (r : OpRand) (sol : Solution)
    (hio : instOK h) (hso : solOK h sol) (hwin : windowOK h sol)
    (hsh : shuffleOK r) :
    (∃ s, neighborhood_change_patient_room h r sol = some s ∧
      (s = sol ∨ ∃ i rm, s = setRoomAt sol i rm)) ∧
    (∃ s, neighborhood_change_patient_day h r sol = some s ∧
      (s = sol ∨ ∃ i d, s = setDayAt sol i d)) ∧
    (∃ s, neighborhood_reschedule_unscheduled h r sol = some s ∧
      (s = sol ∨ ∃ e, s = { sol with patients := sol.patients ++ [e] })) ∧
    (∃ s, neighborhood_change_nurse_assignment h r sol = some s ∧
      (s = sol ∨ ∃ j1 k1 rooms1 j2 k2 rooms2,
        s = setRoomsAt (setRoomsAt sol j1 k1 rooms1) j2 k2 rooms2)) ∧
    (∃ s, neighborhood_change_patient_ot h r sol = some s ∧
      (s = sol ∨ ∃ i ot, s = setOtAt sol i ot)) :=
  ⟨cpr_total h r sol hso hsh, cpd_total h r sol hio hso hwin hsh,
    rsu_total h r sol hio hso hsh, cna_total h r sol hso,
    cpo_total h r sol hio hso⟩

/-- Witness for C2 (amended) at the degenerate concrete instance: the
change-patient-day operator returns normally. -/
theorem C2_operators_total_witness :
    ∃ s, neighborhood_change_patient_day hospW idRand solW = some s ∧
      (s = solW ∨ ∃ i d, s = setDayAt solW i d) :=
  (C2_operators_total hospW idRand solW
    ⟨by decide, by decide, by decide⟩
    ⟨by decide, by decide, by decide, by decide, by decide⟩
    (fun ps hps => absurd hps (List.not_mem_nil ps))
    idRand_shuffleOK).2.1

end HSched
